import Mathlib

/-!
# Verification of the neural-dharma core

A shallow embedding, in Lean 4, of the core evaluation/aggregation pipeline of
the neural-dharma repository: the guna classifier (`guna-classifier.ts`), the
karma evaluator (`karma-evaluator.ts`), the dharma constraint gate
(`dharma-constraint.ts`), the nishkama optimizer (`nishkama-optimizer.ts`),
the nishkama objective reward reshaper (`nishkama-objective.ts`) and the
alignment auditor (`alignment-audit.ts`).

Numbers are modelled as real numbers (the source uses IEEE doubles; all the
verified properties are exact-arithmetic properties).  Free-text fields built
with float formatting (`toFixed`), wall-clock timestamps (`Date.now()`) and
counter-based ids are not modelled; fields and helpers not referenced by any
verified property (report metadata, per-agent summaries, pattern/recommendation
text) are elided.  JavaScript's `Array.prototype.sort`, stable since ES2019,
is modelled by `List.insertionSort`, which is stable.
-/

/-! ## Data model: feature vectors and gunas (`guna-classifier.ts`) -/

/-- The three fundamental qualities of nature (`type Guna`). -/
inductive Guna : Type
  | sattva
  | rajas
  | tamas
deriving DecidableEq, Inhabited, Repr

/-- Raw behavioral feature vector (`interface FeatureVector`): eight required
numeric dimensions. -/
structure FeatureVector : Type where
  altruism : ℝ
  deliberation : ℝ
  attachment : ℝ
  agitation : ℝ
  transparency : ℝ
  effort : ℝ
  harmPotential : ℝ
  consistency : ℝ

/-- Names of the eight feature dimensions (`keyof FeatureVector`). -/
inductive FeatureKey : Type
  | altruism
  | deliberation
  | attachment
  | agitation
  | transparency
  | effort
  | harmPotential
  | consistency
deriving DecidableEq, Repr

/-- Field access by key. -/
def FeatureVector.get (f : FeatureVector) : FeatureKey → ℝ
  | .altruism => f.altruism
  | .deliberation => f.deliberation
  | .attachment => f.attachment
  | .agitation => f.agitation
  | .transparency => f.transparency
  | .effort => f.effort
  | .harmPotential => f.harmPotential
  | .consistency => f.consistency

/-- The iteration order of `Object.entries(features)` for a `FeatureVector`
literal (the declared field order). -/
def featureKeys : List FeatureKey :=
  [.altruism, .deliberation, .attachment, .agitation, .transparency, .effort,
   .harmPotential, .consistency]

/-- Classification result (`interface GunaClassification`); the free-text
`reasoning` field is not modelled. -/
structure GunaClassification : Type where
  primary : Guna
  scores : Guna → ℝ
  features : FeatureVector

/-- The classifier's configuration state (`class GunaClassifier`): a full
per-guna per-feature weight table and the dominance threshold.  The optional
`featureExtractor` (used only by `classify`, not by `classifyFeatures`) is not
modelled. -/
structure GunaClassifier : Type where
  weights : Guna → FeatureKey → ℝ
  dominanceThreshold : ℝ

/-- `DEFAULT_WEIGHTS` from `guna-classifier.ts`. -/
def DEFAULT_WEIGHTS : Guna → FeatureKey → ℝ
  | .sattva, .altruism => 1.0
  | .sattva, .deliberation => 0.9
  | .sattva, .attachment => -0.8
  | .sattva, .agitation => -0.7
  | .sattva, .transparency => 1.0
  | .sattva, .effort => 0.5
  | .sattva, .harmPotential => -1.0
  | .sattva, .consistency => 0.9
  | .rajas, .altruism => -0.3
  | .rajas, .deliberation => 0.2
  | .rajas, .attachment => 1.0
  | .rajas, .agitation => 0.9
  | .rajas, .transparency => -0.2
  | .rajas, .effort => 0.8
  | .rajas, .harmPotential => 0.3
  | .rajas, .consistency => -0.3
  | .tamas, .altruism => -0.5
  | .tamas, .deliberation => -1.0
  | .tamas, .attachment => 0.3
  | .tamas, .agitation => -0.5
  | .tamas, .transparency => -0.8
  | .tamas, .effort => -1.0
  | .tamas, .harmPotential => 0.8
  | .tamas, .consistency => -0.6

/-- The default classifier (`new GunaClassifier()`). -/
def defaultGunaClassifier : GunaClassifier :=
  { weights := DEFAULT_WEIGHTS, dominanceThreshold := 0.1 }

/-- `GunaClassifier.rawScore`: raw (unnormalized) linear score of one guna,
summing `weight × value` over the feature entries. -/
def GunaClassifier.rawScore (c : GunaClassifier) (g : Guna) (f : FeatureVector) : ℝ :=
  (featureKeys.map (fun k => c.weights g k * f.get k)).sum

/-- `GunaClassifier.softmax`: numerically-stable softmax over the three raw
scores (subtract the maximum before exponentiating). -/
noncomputable def GunaClassifier.softmax (sc : Guna → ℝ) : Guna → ℝ :=
  let m := max (sc .sattva) (max (sc .rajas) (sc .tamas))
  let expS := Real.exp (sc .sattva - m)
  let expR := Real.exp (sc .rajas - m)
  let expT := Real.exp (sc .tamas - m)
  let sum := expS + expR + expT
  fun g =>
    match g with
    | .sattva => expS / sum
    | .rajas => expR / sum
    | .tamas => expT / sum

/-- The stable descending sort of `['sattva', 'rajas', 'tamas']` by score,
as performed by `classifyFeatures` via `Array.prototype.sort` with comparator
`(a, b) => scores[b] - scores[a]`. -/
noncomputable def sortGunasByScore (sc : Guna → ℝ) : List Guna :=
  List.insertionSort (fun a b => sc b ≤ sc a) [.sattva, .rajas, .tamas]

/-- `GunaClassifier.classifyFeatures`: classify from a pre-computed feature
vector.  The `isMixed` flag feeds only the unmodelled `reasoning` text. -/
noncomputable def GunaClassifier.classifyFeatures (c : GunaClassifier)
    (features : FeatureVector) : GunaClassification :=
  let raw : Guna → ℝ := fun g => c.rawScore g features
  let scores := GunaClassifier.softmax raw
  let sorted := sortGunasByScore scores
  { primary := sorted.headI, scores := scores, features := features }

/-- Modelled from the spec (§4.1): `primary` is the argmax of the three scores
with ties broken by the fixed precedence order sattva before rajas before
tamas.  Used to compare the code's sort-based computation against the spec's
description. -/
noncomputable def specPrecedenceArgmax (sc : Guna → ℝ) : Guna :=
  if sc .rajas ≤ sc .sattva ∧ sc .tamas ≤ sc .sattva then .sattva
  else if sc .tamas ≤ sc .rajas then .rajas
  else .tamas

/-! ## Reward reshaper (`nishkama-objective.ts`) -/

/-- `interface ProcessQualityInput`. -/
structure ProcessQualityInput : Type where
  features : FeatureVector
  description : Option String := none
  agentRole : Option String := none
  timestamp : Option ℝ := none

/-- `defaultQualityFn`: default process quality scorer using feature vectors.
(The `?? 0` / `?? 0.5` fallbacks in the source are dead code: every field of
`FeatureVector` is required.) -/
noncomputable def defaultQualityFn (input : ProcessQualityInput) : ℝ :=
  let f := input.features
  let ahimsa := 1.0 - f.harmPotential
  let satya := f.transparency
  let nishkama := 1.0 - f.attachment
  let viveka := f.deliberation
  let seva := f.altruism
  let consistency := f.consistency
  let totalWeight : ℝ := 1.0 + 0.9 + 0.85 + 0.8 + 0.7 + 0.65
  let score :=
    (ahimsa * 1.0 + satya * 0.9 + nishkama * 0.85 + viveka * 0.8 +
      seva * 0.7 + consistency * 0.65) / totalWeight
  max 0 (min 1 score)

/-- `interface NishkamaObjectiveConfig` (all fields optional). -/
structure NishkamaObjectiveConfig : Type where
  processWeight : Option ℝ := none
  qualityFn : Option (ProcessQualityInput → ℝ) := none
  recommendationThreshold : Option ℝ := none
  allowNegativeRewards : Option Bool := none
  rewardRange : Option (ℝ × ℝ) := none

/-- The private state of `class NishkamaObjective<TState, TAction>`. -/
structure NishkamaObjective (S A : Type) : Type where
  rewardFn : S → A → S → ℝ
  qualityFn : ProcessQualityInput → ℝ
  processWeight : ℝ
  recommendationThreshold : ℝ
  allowNegativeRewards : Bool
  rewardRange : ℝ × ℝ

/-- The `NishkamaObjective` constructor: applies defaults and clamps the
process weight to `[0,1]`. -/
noncomputable def mkNishkamaObjective {S A : Type} (rewardFn : S → A → S → ℝ)
    (config : NishkamaObjectiveConfig) : NishkamaObjective S A :=
  { rewardFn := rewardFn
    qualityFn := config.qualityFn.getD defaultQualityFn
    processWeight := max 0 (min 1 (config.processWeight.getD 0.5))
    recommendationThreshold := config.recommendationThreshold.getD 0.3
    allowNegativeRewards := config.allowNegativeRewards.getD true
    rewardRange := config.rewardRange.getD (-1, 1) }

/-- `interface ObjectiveResult`; the free-text `reasoning` field is not
modelled. -/
structure ObjectiveResult (S A : Type) : Type where
  originalReward : ℝ
  processQuality : ℝ
  modifiedReward : ℝ
  dampingFactor : ℝ
  recommended : Bool
  context : S × A × S

/-- `NishkamaObjective.compute`: the reshaped reward
`R~ = (1-lam)*R + lam*Q*R` computed in the normalized reward space. -/
noncomputable def NishkamaObjective.compute {S A : Type} (o : NishkamaObjective S A)
    (state : S) (action : A) (nextState : S)
    (qualityInput : ProcessQualityInput) : ObjectiveResult S A :=
  let originalReward := o.rewardFn state action nextState
  let processQuality := o.qualityFn qualityInput
  let rMin := o.rewardRange.1
  let rMax := o.rewardRange.2
  let normalizedR :=
    if rMax ≠ rMin then ((originalReward - rMin) / (rMax - rMin)) * 2 - 1
    else originalReward
  let dampingFactor := (1 - o.processWeight) + o.processWeight * processQuality
  let dampened := normalizedR * dampingFactor
  let modifiedNormalized :=
    if o.allowNegativeRewards = false ∧ 0.7 ≤ processQuality then max 0 dampened
    else dampened
  let modifiedReward := ((modifiedNormalized + 1) / 2) * (rMax - rMin) + rMin
  let recommended := decide (o.recommendationThreshold ≤ processQuality)
  { originalReward := originalReward
    processQuality := processQuality
    modifiedReward := modifiedReward
    dampingFactor := dampingFactor
    recommended := recommended
    context := (state, action, nextState) }

/-- `NishkamaObjective.pureNishkama`: the λ=1 preset; its wrapped reward
function is the constant `0`. -/
noncomputable def NishkamaObjective.pureNishkama (S A : Type)
    (qualityFn : Option (ProcessQualityInput → ℝ) := none) : NishkamaObjective S A :=
  mkNishkamaObjective (fun _ _ _ => 0)
    { processWeight := some 1.0, qualityFn := qualityFn }

/-- `NishkamaObjective.conventional`: the λ=0 preset. -/
noncomputable def NishkamaObjective.conventional (S A : Type)
    (rewardFn : S → A → S → ℝ) : NishkamaObjective S A :=
  mkNishkamaObjective rewardFn { processWeight := some 0 }

/-! ## Karma evaluator (`karma-evaluator.ts`) -/

/-- `EvaluatedAction['features']`: a `FeatureVector` with three optional
extension fields. -/
structure ExtendedFeatures extends FeatureVector where
  deceptionLevel : Option ℝ := none
  reversibility : Option ℝ := none
  scopeCreep : Option ℝ := none

/-- `interface EvaluationPrinciple`. -/
structure EvaluationPrinciple : Type where
  id : String
  name : String
  shloka : String
  weight : ℝ
  score : ExtendedFeatures → ℝ
  description : String

/-- `interface EvaluatedAction`. -/
structure EvaluatedAction : Type where
  id : String
  description : String
  features : ExtendedFeatures
  agentRole : Option String := none
  timestamp : Option ℝ := none

/-- `interface PrincipleScore`. -/
structure PrincipleScore : Type where
  principle : String
  shloka : String
  weight : ℝ
  rawScore : ℝ
  weightedScore : ℝ

/-- The four ordinal alignment levels. -/
inductive AlignmentLevel : Type
  | high
  | medium
  | low
  | critical
deriving DecidableEq, Repr

/-- `interface KarmaEvaluation`.  The violation/commendation messages are
modelled by the offending principle's name (the source appends a
`toFixed`-formatted score, which is float formatting and is not modelled);
the free-text `reasoning` and the wall-clock `evaluatedAt` are not
modelled. -/
structure KarmaEvaluation : Type where
  action : EvaluatedAction
  dharmaScore : ℝ
  principleScores : List PrincipleScore
  alignmentLevel : AlignmentLevel
  isAligned : Bool
  violations : List String
  commendations : List String

/-- `CORE_PRINCIPLES`: the five core dharmic evaluation principles. -/
noncomputable def CORE_PRINCIPLES : List EvaluationPrinciple :=
  [ { id := "viveka"
      name := "Viveka (विवेक) — Discrimination"
      shloka := "BG 2.52: buddhir vyavasāyātmikā — the intellect of determination"
      weight := 0.9
      description := "Quality of deliberation and value-consistency of the action"
      score := fun f => f.deliberation * 0.6 + f.consistency * 0.4 }
  , { id := "ahimsa"
      name := "Ahimsa (अहिंसा) — Non-Harm"
      shloka := "BG 16.2: ahiṁsā satyam akrodhas — non-harm, truth, freedom from anger"
      weight := 1.0
      description := "Absence of harm to any entity; the primary dharmic constraint"
      score := fun f => max 0 ((1.0 - f.harmPotential) - (f.deceptionLevel.getD 0) * 0.3) }
  , { id := "satya"
      name := "Satya (सत्य) — Truthfulness"
      shloka := "BG 17.15: satyaṁ priyahitaṁ ca yat — truth that is pleasant and beneficial"
      weight := 0.9
      description := "Honesty, transparency, and calibrated confidence in action"
      score := fun f => f.transparency * 0.6 + (1.0 - f.deceptionLevel.getD 0) * 0.4 }
  , { id := "seva"
      name := "Seva (सेवा) — Selfless Service"
      shloka := "BG 3.25: saktas karmany avidvāṁso — the wise act for the welfare of the world"
      weight := 0.75
      description := "Degree to which action serves others rather than self-interest"
      score := fun f => f.altruism * 0.7 + f.effort * 0.3 }
  , { id := "nishkama"
      name := "Nishkama (निष्काम) — Desireless Action"
      shloka := "BG 2.47: mā phaleṣu kadācana — never be attached to the fruits"
      weight := 0.85
      description := "Process-orientation; absence of outcome attachment or reward hacking"
      score := fun f => (1.0 - f.attachment) * 0.6 + (1.0 - f.agitation) * 0.4 }
  ]

/-- The private state of `class KarmaEvaluator`. -/
structure KarmaEvaluator : Type where
  principles : List EvaluationPrinciple
  alignmentThreshold : ℝ
  commendationThreshold : ℝ
  violationThreshold : ℝ

/-- `interface KarmaEvaluatorConfig`. -/
structure KarmaEvaluatorConfig : Type where
  principles : Option (List EvaluationPrinciple) := none
  mergeWithDefaults : Option Bool := none
  alignmentThreshold : Option ℝ := none
  commendationThreshold : Option ℝ := none
  violationThreshold : Option ℝ := none

/-- The `KarmaEvaluator` constructor. -/
noncomputable def mkKarmaEvaluator (config : KarmaEvaluatorConfig) : KarmaEvaluator :=
  { alignmentThreshold := config.alignmentThreshold.getD 0.5
    commendationThreshold := config.commendationThreshold.getD 0.85
    violationThreshold := config.violationThreshold.getD 0.3
    principles :=
      match config.principles, config.mergeWithDefaults with
      | some ps, some false => ps
      | some ps, _ => CORE_PRINCIPLES ++ ps
      | none, _ => CORE_PRINCIPLES }

/-- The alignment-level threshold ladder of `KarmaEvaluator.evaluate`. -/
noncomputable def alignmentLevelOf (dharmaScore : ℝ) : AlignmentLevel :=
  if 0.8 ≤ dharmaScore then .high
  else if 0.5 ≤ dharmaScore then .medium
  else if 0.25 ≤ dharmaScore then .low
  else .critical

/-- `KarmaEvaluator.evaluate`: score one action against all principles.  The
source's single loop over `this.principles` is modelled by maps/filters over
the same list, in the same order. -/
noncomputable def KarmaEvaluator.evaluate (ev : KarmaEvaluator)
    (action : EvaluatedAction) : KarmaEvaluation :=
  let scored := ev.principles.map
    (fun p => (p, max 0 (min 1 (p.score action.features))))
  let principleScores := scored.map (fun pr =>
    { principle := pr.1.name
      shloka := pr.1.shloka
      weight := pr.1.weight
      rawScore := pr.2
      weightedScore := pr.2 * pr.1.weight : PrincipleScore })
  let violations := (scored.filter
    (fun pr => decide (pr.2 < ev.violationThreshold))).map (fun pr => pr.1.name)
  let commendations := (scored.filter
    (fun pr => decide (ev.commendationThreshold ≤ pr.2))).map (fun pr => pr.1.name)
  let totalWeightedScore := (scored.map (fun pr => pr.2 * pr.1.weight)).sum
  let totalWeight := (ev.principles.map (fun p => p.weight)).sum
  let dharmaScore := if 0 < totalWeight then totalWeightedScore / totalWeight else 0
  { action := action
    dharmaScore := dharmaScore
    principleScores := principleScores
    alignmentLevel := alignmentLevelOf dharmaScore
    isAligned := decide (ev.alignmentThreshold ≤ dharmaScore)
    violations := violations
    commendations := commendations }

/-! ## Boundary/rule gate (`dharma-constraint.ts`) -/

/-- `interface ConstrainedAction`.  The `targets`, `intent` and `context`
fields are never read by the gate and are not modelled. -/
structure ConstrainedAction : Type where
  id : String
  type : String
  description : String
  agentRole : Option String := none
  harmPotential : Option ℝ := none
  deceptionLevel : Option ℝ := none
  resourceConsumption : Option ℝ := none
  reversible : Option Bool := none

/-- `interface BoundaryRule`.  `isViolated` returns `true` when the action
VIOLATES the rule; `priority ∈ {1..5}` is modelled as `ℕ`. -/
structure BoundaryRule : Type where
  id : String
  name : String
  grounding : String
  priority : ℕ
  isViolated : ConstrainedAction → Bool
  complianceScore : ConstrainedAction → ℝ

/-- `interface ViolationReport`. -/
structure ViolationReport : Type where
  ruleId : String
  ruleName : String
  priority : ℕ
  grounding : String
  message : String

/-- `interface PassedRule`. -/
structure PassedRule : Type where
  ruleId : String
  ruleName : String
  score : ℝ

/-- The three-valued recommendation ladder. -/
inductive Recommendation : Type
  | proceed
  | caution
  | deny
deriving DecidableEq, Repr

/-- `interface ConstraintEvaluation`; the free-text `reasoning` field is not
modelled. -/
structure ConstraintEvaluation : Type where
  permitted : Bool
  complianceScore : ℝ
  violations : List ViolationReport
  passed : List PassedRule
  recommendation : Recommendation

/-- The violation record appended by the evaluation loop for a violated
rule. -/
def mkViolationReport (rule : BoundaryRule) (action : ConstrainedAction) :
    ViolationReport :=
  { ruleId := rule.id
    ruleName := rule.name
    priority := rule.priority
    grounding := rule.grounding
    message := "Action \"" ++ action.description ++ "\" violates " ++ rule.name }

/-- Accumulator of the `for (const rule of this.rules)` loop in
`DharmaConstraint.evaluate`. -/
structure ConstraintAcc : Type where
  violations : List ViolationReport
  passed : List PassedRule
  totalScore : ℝ
  ruleCount : ℕ

/-- One iteration of the evaluation loop. -/
noncomputable def constraintStep (action : ConstrainedAction)
    (acc : ConstraintAcc) (rule : BoundaryRule) : ConstraintAcc :=
  if rule.isViolated action then
    { acc with violations := acc.violations ++ [mkViolationReport rule action] }
  else
    let score := max 0 (min 1 (rule.complianceScore action))
    { acc with
      passed := acc.passed ++ [{ ruleId := rule.id, ruleName := rule.name, score := score }]
      totalScore := acc.totalScore + score
      ruleCount := acc.ruleCount + 1 }

/-- `DharmaConstraint.evaluate`, parameterized by the instance's (already
merged and priority-sorted) rule list and thresholds. -/
noncomputable def DharmaConstraint.evaluate (rules : List BoundaryRule)
    (proceedThreshold cautionThreshold : ℝ)
    (action : ConstrainedAction) : ConstraintEvaluation :=
  let acc := rules.foldl (constraintStep action)
    { violations := [], passed := [], totalScore := 0, ruleCount := 0 }
  let permitted : Bool := acc.violations.length = 0
  let complianceScore := if 0 < acc.ruleCount then acc.totalScore / acc.ruleCount else 0
  let recommendation : Recommendation :=
    if permitted = false then .deny
    else if proceedThreshold ≤ complianceScore then .proceed
    else if cautionThreshold ≤ complianceScore then .caution
    else .deny
  { permitted := permitted
    complianceScore := complianceScore
    violations := acc.violations
    passed := acc.passed
    recommendation := recommendation }

/-- `DEFAULT_BOUNDARY_RULES` (the apostrophe in the role-scope grounding
string is dropped). -/
noncomputable def DEFAULT_BOUNDARY_RULES : List BoundaryRule :=
  [ { id := "ahimsa"
      name := "Ahimsa (Non-Harm)"
      grounding := "BG 16.2: abhayaṁ sattva-saṁśuddhir — fearlessness, purity of being"
      priority := 5
      isViolated := fun a => decide (0.7 < a.harmPotential.getD 0)
      complianceScore := fun a => 1.0 - a.harmPotential.getD 0 }
  , { id := "satya"
      name := "Satya (Truthfulness)"
      grounding := "BG 17.15: satyaṁ priyahitaṁ — truth that is beneficial and pleasant"
      priority := 5
      isViolated := fun a => decide (0.6 < a.deceptionLevel.getD 0)
      complianceScore := fun a => 1.0 - a.deceptionLevel.getD 0 }
  , { id := "aparigraha"
      name := "Aparigraha (Non-Greed)"
      grounding := "BG 4.21: nirāśīr yata-cittātmā — free from desire, self-controlled"
      priority := 3
      isViolated := fun a => decide (0.9 < a.resourceConsumption.getD 0)
      complianceScore := fun a => 1.0 - a.resourceConsumption.getD 0 }
  , { id := "reversibility"
      name := "Reversibility (Kṣamā — Forbearance)"
      grounding := "BG 16.3: kṣamā — capacity to undo; prefer reversible actions"
      priority := 2
      isViolated := fun a => a.reversible == some false && decide (0.5 < a.harmPotential.getD 0)
      complianceScore := fun a => if a.reversible ≠ some false then 1.0 else 0.4 }
  , { id := "role-scope"
      name := "Svadharma Scope (Role Adherence)"
      grounding := "BG 3.35: śreyān svadharmo — better to act within one own dharma"
      priority := 4
      isViolated := fun _ => false
      complianceScore := fun _ => 0.8 }
  ]

/-! ## Fitness-based selector (`nishkama-optimizer.ts`) -/

/-- `interface Action<T>`: an action candidate for the optimizer. -/
structure OptimizerAction (T : Type) : Type where
  id : String
  description : String
  payload : T
  features : FeatureVector
  svadharma : Option String := none

/-- `interface DharmicPrinciple`. -/
structure DharmicPrinciple : Type where
  name : String
  weight : ℝ
  score : FeatureVector → ℝ

/-- One entry of `OptimizationResult['ranked']`; the free-text `reasoning`
field is not modelled. -/
structure RankedAction (T : Type) : Type where
  action : OptimizerAction T
  dharmicFitness : ℝ
  guna : Guna
  gunaScores : Guna → ℝ

/-- `interface OptimizationResult<T>`; the free-text `selectionReasoning`
field is not modelled. -/
structure OptimizationResult (T : Type) : Type where
  ranked : List (RankedAction T)
  selected : OptimizerAction T

/-- `DEFAULT_PRINCIPLES`: default dharmic principles of the optimizer. -/
noncomputable def DEFAULT_PRINCIPLES : List DharmicPrinciple :=
  [ { name := "Ahimsa (Non-harm)", weight := 1.0, score := fun f => 1.0 - f.harmPotential }
  , { name := "Satya (Truthfulness)", weight := 0.9, score := fun f => f.transparency }
  , { name := "Aparigraha (Non-attachment)", weight := 0.85, score := fun f => 1.0 - f.attachment }
  , { name := "Viveka (Discernment)", weight := 0.8, score := fun f => f.deliberation }
  , { name := "Seva (Service)", weight := 0.75, score := fun f => f.altruism }
  , { name := "Sthairya (Steadfastness)", weight := 0.7, score := fun f => f.consistency }
  ]

/-- The private state of `class NishkamaOptimizer`. -/
structure NishkamaOptimizer : Type where
  principles : List DharmicPrinciple
  classifier : GunaClassifier
  temperature : ℝ
  minimumFitness : ℝ
  svadharma : Option String
  svadharmaWeight : ℝ

/-- `interface NishkamaOptimizerConfig`. -/
structure NishkamaOptimizerConfig : Type where
  principles : Option (List DharmicPrinciple) := none
  gunaClassifier : Option GunaClassifier := none
  temperature : Option ℝ := none
  minimumFitness : Option ℝ := none
  svadharma : Option String := none
  svadharmaWeight : Option ℝ := none

/-- The `NishkamaOptimizer` constructor. -/
noncomputable def mkNishkamaOptimizer (config : NishkamaOptimizerConfig) :
    NishkamaOptimizer :=
  { principles := config.principles.getD DEFAULT_PRINCIPLES
    classifier := config.gunaClassifier.getD defaultGunaClassifier
    temperature := config.temperature.getD 0
    minimumFitness := config.minimumFitness.getD 0
    svadharma := config.svadharma
    svadharmaWeight := config.svadharmaWeight.getD 0.2 }

/-- `NishkamaOptimizer.computeFitness`: principle-weighted average, plus a
guna modifier, plus an optional svadharma bonus. -/
noncomputable def NishkamaOptimizer.computeFitness {T : Type}
    (opt : NishkamaOptimizer) (action : OptimizerAction T) : ℝ :=
  let totalScore := (opt.principles.map
    (fun p => p.weight * max 0 (min 1 (p.score action.features)))).sum
  let totalWeight := (opt.principles.map (fun p => p.weight)).sum
  let base := if 0 < totalWeight then totalScore / totalWeight else 0
  let classification := opt.classifier.classifyFeatures action.features
  let gunaModifier :=
    classification.scores .sattva * 0.15 - classification.scores .tamas * 0.15
  let clamped := max 0 (min 1 (base + gunaModifier))
  match opt.svadharma with
  | some duty => if action.svadharma = some duty then min 1 (clamped + opt.svadharmaWeight) else clamped
  | none => clamped

/-- The cumulative-probability scan of the Boltzmann selection loop: returns
the first index whose cumulative probability reaches the random draw `r`, and
`0` if the loop finishes without the cumulative sum reaching `r` (the
`selectedIdx` variable keeps its initial value in the source). -/
noncomputable def cumulativeSelect (probs : List ℝ) (r : ℝ) (acc : ℝ) (i : ℕ) : ℕ :=
  match probs with
  | [] => 0
  | p :: rest => if r ≤ acc + p then i else cumulativeSelect rest r (acc + p) (i + 1)

/-- Evaluation of one candidate inside `optimize`. -/
noncomputable def NishkamaOptimizer.evalAction {T : Type} (opt : NishkamaOptimizer)
    (action : OptimizerAction T) : RankedAction T :=
  let classification := opt.classifier.classifyFeatures action.features
  { action := action
    dharmicFitness := opt.computeFitness action
    guna := classification.primary
    gunaScores := classification.scores }

/-- `NishkamaOptimizer.optimize`: selects the best action from candidates by
dharmic fitness; `throw` is modelled by `Except.error`, and the single
`Math.random()` draw of the stochastic path is the injected parameter
`rand`. -/
noncomputable def NishkamaOptimizer.optimize {T : Type} (opt : NishkamaOptimizer)
    (rand : ℝ) (actions : List (OptimizerAction T)) :
    Except String (OptimizationResult T) :=
  match actions with
  | [] => .error "Cannot optimize empty action set. At least one action required."
  | a0 :: rest =>
    let evaluated := (a0 :: rest).map opt.evalAction
    let viable := evaluated.filter (fun e => decide (opt.minimumFitness ≤ e.dharmicFitness))
    let pool := if viable.length = 0 then evaluated else viable
    let sorted := List.insertionSort
      (fun x y => y.dharmicFitness ≤ x.dharmicFitness) pool
    let selectedIdx :=
      if 0 < opt.temperature ∧ 1 < sorted.length then
        let weights := sorted.map (fun e => Real.exp (e.dharmicFitness / opt.temperature))
        let sum := weights.sum
        let probs := weights.map (fun w => w / sum)
        cumulativeSelect probs rand 0 0
      else 0
    let selected := sorted.getD selectedIdx (opt.evalAction a0)
    .ok { ranked := sorted, selected := selected.action }

/-! ## Sequence auditor (`alignment-audit.ts`) -/

/-- `interface AuditLogEntry`; the unread `meta` payload is not modelled. -/
structure AuditLogEntry : Type where
  id : String
  description : String
  agent : String
  features : ExtendedFeatures
  timestamp : ℝ
  parentId : Option String := none
  svadharma : Option String := none

/-- `pearsonCorrelation`: Pearson correlation between the index sequence
`0..n-1` and the scores. -/
noncomputable def pearsonCorrelation (scores : List ℝ) : ℝ :=
  if scores.length < 2 then 0
  else
    let n : ℕ := scores.length
    let meanI : ℝ := ((n : ℝ) - 1) / 2
    let meanS : ℝ := scores.sum / (n : ℝ)
    let num : ℝ := ((List.range n).map
      (fun (i : ℕ) => ((i : ℝ) - meanI) * (scores.getD i 0 - meanS))).sum
    let denI : ℝ := Real.sqrt (((List.range n).map
      (fun (i : ℕ) => ((i : ℝ) - meanI) ^ 2)).sum)
    let denS : ℝ := Real.sqrt ((scores.map (fun s => (s - meanS) ^ 2)).sum)
    if denI * denS = 0 then 0 else num / (denI * denS)

/-- `stdDev`: population standard deviation (`0` below two values). -/
noncomputable def stdDev (values : List ℝ) : ℝ :=
  if values.length < 2 then 0
  else
    let mean := values.sum / (values.length : ℝ)
    Real.sqrt (((values.map (fun v => (v - mean) ^ 2)).sum) / (values.length : ℝ))

/-- `median`: median of a list (`0` on empty; average of the two middle
elements on even length).  The ascending `sort((a, b) => a - b)` is modelled
by a stable insertion sort. -/
noncomputable def median (values : List ℝ) : ℝ :=
  if values.length = 0 then 0
  else
    let sorted := List.insertionSort (fun a b => a ≤ b) values
    let mid := sorted.length / 2
    if sorted.length % 2 = 0 then (sorted.getD (mid - 1) 0 + sorted.getD mid 0) / 2
    else sorted.getD mid 0

/-- `Math.min(...scores)` over a list; the `[]` case is unreachable in the
non-empty audit path (JavaScript would give `Infinity`). -/
noncomputable def listMin : List ℝ → ℝ
  | [] => 0
  | x :: xs => xs.foldl min x

/-- `Math.max(...scores)` over a list; the `[]` case is unreachable in the
non-empty audit path (JavaScript would give `-Infinity`). -/
noncomputable def listMax : List ℝ → ℝ
  | [] => 0
  | x :: xs => xs.foldl max x

/-- `interface AlignmentStatistics`. -/
structure AlignmentStatistics : Type where
  count : ℕ
  mean : ℝ
  median : ℝ
  stdDev : ℝ
  min : ℝ
  max : ℝ
  driftIndex : ℝ
  trend : ℝ
  alignedPercent : ℝ
  criticalPercent : ℝ

/-- Flag severity. -/
inductive Severity : Type
  | warning
  | violation
  | critical
deriving DecidableEq, Repr

/-- Audit verdict. -/
inductive Verdict : Type
  | aligned
  | needsReview
  | misaligned
  | critical
deriving DecidableEq, Repr

/-- One element of `AlignmentReport['flaggedActions']`.  The `action` field
keeps the `Option` produced by `entries.find(...)` (the source applies a
non-null assertion to it); the `flagReason` text is not modelled. -/
structure FlaggedAction : Type where
  action : Option AuditLogEntry
  evaluation : KarmaEvaluation
  severity : Severity

/-- `interface AlignmentReport`, restricted to the fields referenced by the
verified properties (`meta`, `agentSummaries`, `patterns`,
`recommendations`, `philosophicalContext` and `principleBreakdown` are not
modelled). -/
structure AlignmentReport : Type where
  verdict : Verdict
  overallDharmaScore : ℝ
  statistics : AlignmentStatistics
  evaluations : List KarmaEvaluation
  flaggedActions : List FlaggedAction

/-- The private state of `class AlignmentAudit`. -/
structure AlignmentAudit : Type where
  evaluator : KarmaEvaluator
  alignmentThreshold : ℝ
  criticalThreshold : ℝ
  alignedVerdict : ℝ
  reviewVerdict : ℝ

/-- `interface AlignmentAuditConfig`. -/
structure AlignmentAuditConfig : Type where
  evaluator : Option KarmaEvaluator := none
  alignmentThreshold : Option ℝ := none
  criticalThreshold : Option ℝ := none
  alignedVerdict : Option ℝ := none
  reviewVerdict : Option ℝ := none

/-- The `AlignmentAudit` constructor. -/
noncomputable def mkAlignmentAudit (config : AlignmentAuditConfig) : AlignmentAudit :=
  { evaluator := config.evaluator.getD (mkKarmaEvaluator {})
    alignmentThreshold := config.alignmentThreshold.getD 0.5
    criticalThreshold := config.criticalThreshold.getD 0.25
    alignedVerdict := config.alignedVerdict.getD 0.65
    reviewVerdict := config.reviewVerdict.getD 0.45 }

/-- The conversion of a log entry into the evaluator's input shape, inside
`AlignmentAudit.audit`. -/
def toEvaluatedAction (e : AuditLogEntry) : EvaluatedAction :=
  { id := e.id
    description := e.description
    features := e.features
    agentRole := e.svadharma
    timestamp := some e.timestamp }

/-- `AlignmentAudit.emptyReport` (restricted to the modelled fields). -/
noncomputable def AlignmentAudit.emptyReport : AlignmentReport :=
  { verdict := .needsReview
    overallDharmaScore := 0
    statistics :=
      { count := 0, mean := 0, median := 0, stdDev := 0, min := 0, max := 0,
        driftIndex := 0, trend := 0, alignedPercent := 0, criticalPercent := 0 }
    evaluations := []
    flaggedActions := [] }

/-- `AlignmentAudit.audit`: run a full alignment audit on a sequence of log
entries. -/
noncomputable def AlignmentAudit.audit (au : AlignmentAudit)
    (entries : List AuditLogEntry) : AlignmentReport :=
  if entries.length = 0 then AlignmentAudit.emptyReport
  else
    let evaluatedActions := entries.map toEvaluatedAction
    let evaluationsOrdered := evaluatedActions.map au.evaluator.evaluate
    let evaluations := List.insertionSort
      (fun a b => b.dharmaScore ≤ a.dharmaScore) evaluationsOrdered
    let scores := evaluationsOrdered.map (fun e => e.dharmaScore)
    let mean := scores.sum / (scores.length : ℝ)
    let stats : AlignmentStatistics :=
      { count := scores.length
        mean := mean
        median := median scores
        stdDev := stdDev scores
        min := listMin scores
        max := listMax scores
        driftIndex := listMax scores - listMin scores
        trend := pearsonCorrelation scores
        alignedPercent :=
          ((scores.filter (fun s => decide (au.alignmentThreshold ≤ s))).length : ℝ)
            / (scores.length : ℝ) * 100
        criticalPercent :=
          ((scores.filter (fun s => decide (s < au.criticalThreshold))).length : ℝ)
            / (scores.length : ℝ) * 100 }
    let flaggedActions := (evaluations.filter
      (fun e => !e.isAligned || decide (e.dharmaScore < au.criticalThreshold))).map
      (fun evaluation =>
        { action := entries.find? (fun e => e.id == evaluation.action.id)
          evaluation := evaluation
          severity :=
            if evaluation.dharmaScore < au.criticalThreshold then .critical
            else if evaluation.dharmaScore < au.alignmentThreshold then .violation
            else .warning : FlaggedAction })
    let verdict : Verdict :=
      if au.alignedVerdict ≤ stats.mean ∧ stats.criticalPercent = 0 then .aligned
      else if au.reviewVerdict ≤ stats.mean then .needsReview
      else if au.criticalThreshold ≤ stats.mean then .misaligned
      else .critical
    { verdict := verdict
      overallDharmaScore := stats.mean
      statistics := stats
      evaluations := evaluations
      flaggedActions := flaggedActions }

/-! ## Concrete inputs used by witnesses and counterexamples -/

/-- A feature vector with every dimension equal to `x`. -/
def constFeatures (x : ℝ) : FeatureVector :=
  { altruism := x, deliberation := x, attachment := x, agitation := x,
    transparency := x, effort := x, harmPotential := x, consistency := x }

/-- An extended feature vector with every base dimension equal to `x`. -/
def constExtFeatures (x : ℝ) : ExtendedFeatures :=
  { toFeatureVector := constFeatures x }

/-- A quality input whose features are all `x`. -/
def constQualityInput (x : ℝ) : ProcessQualityInput :=
  { features := constFeatures x }

/-- A quality function reading off the altruism dimension. -/
def altruismQualityFn : ProcessQualityInput → ℝ := fun qi => qi.features.altruism

/-- A log entry with the given id and all feature dimensions `x`. -/
noncomputable def sampleEntry (i : String) (x : ℝ) : AuditLogEntry :=
  { id := i, description := "entry", agent := "agent-1",
    features := constExtFeatures x, timestamp := 0 }

/-- An optimizer candidate with all feature dimensions `0.5`. -/
noncomputable def sampleOptimizerAction : OptimizerAction Unit :=
  { id := "a1", description := "candidate", payload := (),
    features := constFeatures 0.5 }

/-- A constrained action with no optional fields. -/
def sampleConstrainedAction : ConstrainedAction :=
  { id := "c1", type := "information", description := "inform" }

/-- A boundary rule violated by every action. -/
noncomputable def alwaysViolatedRule : BoundaryRule :=
  { id := "always", name := "Always Violated", grounding := "test",
    priority := 1, isViolated := fun _ => true, complianceScore := fun _ => 1 }

/-- A single evaluation principle scoring the altruism dimension with
weight 1. -/
def altruismPrinciple : EvaluationPrinciple :=
  { id := "alt", name := "Altruism", shloka := "test", weight := 1,
    score := fun f => f.altruism, description := "altruism only" }

/-- An auditor whose evaluator has `altruismPrinciple` as its only
principle, with the default thresholds. -/
noncomputable def altruismAudit : AlignmentAudit :=
  { evaluator :=
      { principles := [altruismPrinciple], alignmentThreshold := 0.5,
        commendationThreshold := 0.85, violationThreshold := 0.3 }
    alignmentThreshold := 0.5, criticalThreshold := 0.25,
    alignedVerdict := 0.65, reviewVerdict := 0.45 }

/-- The auditor with the all-default configuration (`new AlignmentAudit()`). -/
noncomputable def defaultAudit : AlignmentAudit := mkAlignmentAudit {}

/-- An evaluator with an empty principle list (total weight 0) and default
thresholds. -/
noncomputable def emptyPrinciplesEvaluator : KarmaEvaluator :=
  { principles := [], alignmentThreshold := 0.5,
    commendationThreshold := 0.85, violationThreshold := 0.3 }

/-- An optimizer with an empty principle list and otherwise default
configuration. -/
noncomputable def emptyPrinciplesOptimizer : NishkamaOptimizer :=
  { principles := [], classifier := defaultGunaClassifier, temperature := 0,
    minimumFitness := 0, svadharma := none, svadharmaWeight := 0.2 }

/-! ## Theorems -/

/-- Helper: in the pure preset (`pureNishkama`) the wrapped reward function is
the constant `0`, the default reward range `[-1, 1]` normalizes it to `0`, and
therefore the modified reward is `0` whatever the process quality is, while
the damping factor equals the process quality. -/
theorem pureNishkama_compute_eq (S A : Type) (qf : Option (ProcessQualityInput → ℝ))
    (state : S) (action : A) (nextState : S) (qi : ProcessQualityInput) :
    ((NishkamaObjective.pureNishkama S A qf).compute state action nextState qi).modifiedReward = 0
    ∧ ((NishkamaObjective.pureNishkama S A qf).compute state action nextState qi).originalReward = 0
    ∧ ((NishkamaObjective.pureNishkama S A qf).compute state action nextState qi).dampingFactor
      = ((NishkamaObjective.pureNishkama S A qf).compute state action nextState qi).processQuality
    ∧ ((NishkamaObjective.pureNishkama S A qf).compute state action nextState qi).processQuality
      = (qf.getD defaultQualityFn) qi := by
  simp only [NishkamaObjective.pureNishkama, mkNishkamaObjective,
    NishkamaObjective.compute, Option.getD_some, Option.getD_none]
  norm_num

/-- **C1** (counterexample). For the pure preset, two quality inputs with
different process-quality values (all-0.2 features vs all-0.9 features under
an altruism-reading quality function) produce the SAME modified reward (both
`0`), refuting the claim that quality inputs with different process-quality
values yield different modified rewards. -/
theorem C1_pure_same_modifiedReward_counterexample :
    ((NishkamaObjective.pureNishkama Unit Unit (some altruismQualityFn)).compute
        () () () (constQualityInput 0.2)).processQuality
      ≠ ((NishkamaObjective.pureNishkama Unit Unit (some altruismQualityFn)).compute
        () () () (constQualityInput 0.9)).processQuality
    ∧ ((NishkamaObjective.pureNishkama Unit Unit (some altruismQualityFn)).compute
        () () () (constQualityInput 0.2)).modifiedReward
      = ((NishkamaObjective.pureNishkama Unit Unit (some altruismQualityFn)).compute
        () () () (constQualityInput 0.9)).modifiedReward := by
  refine ⟨?_, ?_⟩
  · have h1 := (pureNishkama_compute_eq Unit Unit (some altruismQualityFn)
      () () () (constQualityInput 0.2)).2.2.2
    have h2 := (pureNishkama_compute_eq Unit Unit (some altruismQualityFn)
      () () () (constQualityInput 0.9)).2.2.2
    rw [h1, h2]
    simp only [Option.getD_some, altruismQualityFn, constQualityInput, constFeatures]
    norm_num
  · rw [(pureNishkama_compute_eq Unit Unit (some altruismQualityFn)
      () () () (constQualityInput 0.2)).1,
      (pureNishkama_compute_eq Unit Unit (some altruismQualityFn)
      () () () (constQualityInput 0.9)).1]

/-- **C1** (amended). For the pure preset `pureNishkama` (process weight λ=1),
the wrapped reward function is the constant `0` and never influences the
result: `originalReward = 0` and `modifiedReward = 0` for every
state/action/nextState and every quality input.  The process quality alone
determines the damping factor (`dampingFactor = processQuality`, the quality
function's value on the input), but it does not vary the modified reward,
which is identically `0` (the midpoint of the default reward range). -/
theorem C1_pureNishkama_amended (S A : Type) (qf : Option (ProcessQualityInput → ℝ))
    (state : S) (action : A) (nextState : S) (qi : ProcessQualityInput) :
    ((NishkamaObjective.pureNishkama S A qf).compute state action nextState qi).originalReward = 0
    ∧ ((NishkamaObjective.pureNishkama S A qf).compute state action nextState qi).modifiedReward = 0
    ∧ ((NishkamaObjective.pureNishkama S A qf).compute state action nextState qi).dampingFactor
      = ((NishkamaObjective.pureNishkama S A qf).compute state action nextState qi).processQuality
    ∧ ((NishkamaObjective.pureNishkama S A qf).compute state action nextState qi).processQuality
      = (qf.getD defaultQualityFn) qi := by
  have h := pureNishkama_compute_eq S A qf state action nextState qi
  exact ⟨h.2.1, h.1, h.2.2.1, h.2.2.2⟩

/-- **C4** (counterexample): the claim fails for a degenerate configured
reward range.  With `rewardRange = [0, 0]` and λ=0, `compute` skips the
normalization branch (`rMax ≠ rMin` is false) but still rescales at the end,
collapsing the reward to `rMin`: the wrapped reward returns `1`, yet
`modifiedReward = ((1 + 1) / 2) * (0 - 0) + 0 = 0 ≠ 1`. -/
theorem C4_degenerate_range_counterexample :
    ((mkNishkamaObjective (fun _ _ _ => (1 : ℝ))
          { processWeight := some 0, rewardRange := some (0, 0) }
        : NishkamaObjective Unit Unit).compute () () ()
        (constQualityInput 0.5)).originalReward = 1
    ∧ ((mkNishkamaObjective (fun _ _ _ => (1 : ℝ))
          { processWeight := some 0, rewardRange := some (0, 0) }
        : NishkamaObjective Unit Unit).compute () () ()
        (constQualityInput 0.5)).modifiedReward = 0 := by
  constructor
  · simp only [mkNishkamaObjective, NishkamaObjective.compute,
      Option.getD_some, Option.getD_none]
  · simp only [mkNishkamaObjective, NishkamaObjective.compute,
      Option.getD_some, Option.getD_none]
    norm_num

/-- **C4** (amended): for the conventional preset (process weight λ=0, fixed
default reward range `[-1, 1]`), `compute` returns `modifiedReward` equal to
`originalReward` (exactly, in real arithmetic), for every reward function,
input and quality input; and for a λ=0 objective over any configured
NON-degenerate reward range (`rMax ≠ rMin`), the normalize-then-rescale
round trip is the identity.  (For a degenerate configured range the rescale
collapses the reward to `rMin`, as the counterexample shows.) -/
theorem C4_conventional_identity (S A : Type) (rewardFn : S → A → S → ℝ)
    (state : S) (action : A) (nextState : S) (qi : ProcessQualityInput)
    (rMin rMax : ℝ) (hr : rMax ≠ rMin) :
    (((NishkamaObjective.conventional S A rewardFn).compute state action nextState qi).modifiedReward
        = ((NishkamaObjective.conventional S A rewardFn).compute state action nextState qi).originalReward
      ∧ ((NishkamaObjective.conventional S A rewardFn).compute state action nextState qi).originalReward
        = rewardFn state action nextState)
    ∧ ((mkNishkamaObjective rewardFn
          { processWeight := some 0, rewardRange := some (rMin, rMax) }).compute
          state action nextState qi).modifiedReward
        = rewardFn state action nextState := by
  have hsub : rMax - rMin ≠ 0 := sub_ne_zero.mpr hr
  refine ⟨⟨?_, ?_⟩, ?_⟩
  · simp only [NishkamaObjective.conventional, mkNishkamaObjective,
      NishkamaObjective.compute, Option.getD_some, Option.getD_none]
    norm_num
  · simp only [NishkamaObjective.conventional, mkNishkamaObjective,
      NishkamaObjective.compute, Option.getD_some, Option.getD_none]
  · simp only [mkNishkamaObjective, NishkamaObjective.compute,
      Option.getD_some, Option.getD_none]
    rw [if_pos hr]
    norm_num
    field_simp

/-- Witness for C4: the non-degeneracy hypothesis holds at the concrete range
`[0, 2]` with the constant reward function `0.4`, and the theorem applies. -/
theorem C4_conventional_identity_witness :
    ((2 : ℝ) ≠ 0)
    ∧ ((((NishkamaObjective.conventional Unit Unit (fun _ _ _ => 0.4)).compute
          () () () (constQualityInput 0.5)).modifiedReward
            = ((NishkamaObjective.conventional Unit Unit (fun _ _ _ => 0.4)).compute
          () () () (constQualityInput 0.5)).originalReward
        ∧ ((NishkamaObjective.conventional Unit Unit (fun _ _ _ => 0.4)).compute
          () () () (constQualityInput 0.5)).originalReward = 0.4)
      ∧ ((mkNishkamaObjective (fun _ _ _ => 0.4)
          { processWeight := some 0, rewardRange := some (0, 2) }).compute
          () () () (constQualityInput 0.5)).modifiedReward = 0.4) :=
  ⟨by norm_num,
    C4_conventional_identity Unit Unit (fun _ _ _ => 0.4) () () ()
      (constQualityInput 0.5) 0 2 (by norm_num)⟩

/-- Helper: the softmax of any three raw scores is nonnegative, bounded by 1,
and the three probabilities sum to exactly 1. -/
theorem softmax_bounds (sc : Guna → ℝ) :
    (∀ g : Guna, 0 ≤ GunaClassifier.softmax sc g ∧ GunaClassifier.softmax sc g ≤ 1)
    ∧ GunaClassifier.softmax sc .sattva + GunaClassifier.softmax sc .rajas
        + GunaClassifier.softmax sc .tamas = 1 := by
  set m := max (sc .sattva) (max (sc .rajas) (sc .tamas)) with hm
  have hS : 0 < Real.exp (sc .sattva - m) := Real.exp_pos _
  have hR : 0 < Real.exp (sc .rajas - m) := Real.exp_pos _
  have hT : 0 < Real.exp (sc .tamas - m) := Real.exp_pos _
  have hsum : 0 < Real.exp (sc .sattva - m) + Real.exp (sc .rajas - m)
      + Real.exp (sc .tamas - m) := by linarith
  constructor
  · intro g
    cases g <;>
      simp only [GunaClassifier.softmax, ← hm] <;>
      exact ⟨div_nonneg (by linarith) (by linarith),
        (div_le_one hsum).mpr (by linarith)⟩
  · simp only [GunaClassifier.softmax, ← hm]
    field_simp

/-- Helper: the `scores` field produced by `classifyFeatures` is the softmax
of the three raw linear scores. -/
theorem classifyFeatures_scores (c : GunaClassifier) (f : FeatureVector) :
    (c.classifyFeatures f).scores
      = GunaClassifier.softmax (fun g => c.rawScore g f) := by
  simp only [GunaClassifier.classifyFeatures]

/-- **C3**: for every feature vector (any finite numeric values; no `[0,1]`
validation) and every weight configuration, the three guna scores produced by
`classifyFeatures` each lie in `[0,1]` and sum to exactly `1` (hence within
any `1e-9` tolerance). -/
theorem C3_classifyFeatures_scores_sum_one (c : GunaClassifier) (f : FeatureVector) :
    (∀ g : Guna, 0 ≤ (c.classifyFeatures f).scores g
      ∧ (c.classifyFeatures f).scores g ≤ 1)
    ∧ (c.classifyFeatures f).scores .sattva + (c.classifyFeatures f).scores .rajas
        + (c.classifyFeatures f).scores .tamas = 1 := by
  rw [classifyFeatures_scores]
  exact softmax_bounds _

/-- Helper: the head of the stable descending sort of the three gunas is the
precedence argmax (sattva before rajas before tamas on ties), and it carries
the maximal score. -/
theorem sortGunas_headI_spec (sc : Guna → ℝ) :
    (sortGunasByScore sc).headI = specPrecedenceArgmax sc
    ∧ (∀ g : Guna, sc g ≤ sc ((sortGunasByScore sc).headI)) := by
  rcases le_or_lt (sc .tamas) (sc .rajas) with h1 | h1
  · rcases le_or_lt (sc .rajas) (sc .sattva) with h2 | h2
    · have hst : sc .tamas ≤ sc .sattva := le_trans h1 h2
      constructor
      · simp [sortGunasByScore, List.insertionSort, List.orderedInsert,
          specPrecedenceArgmax, h1, h2, hst]
      · intro g
        cases g <;>
          simp [sortGunasByScore, List.insertionSort, List.orderedInsert, h1, h2] <;>
          linarith
    · rcases le_or_lt (sc .tamas) (sc .sattva) with h3 | h3
      · constructor
        · simp [sortGunasByScore, List.insertionSort, List.orderedInsert,
            specPrecedenceArgmax, h1, h3, not_le.mpr h2]
        · intro g
          cases g <;>
            simp [sortGunasByScore, List.insertionSort, List.orderedInsert,
              h1, h3, not_le.mpr h2] <;>
            linarith
      · constructor
        · simp [sortGunasByScore, List.insertionSort, List.orderedInsert,
            specPrecedenceArgmax, h1, not_le.mpr h2, not_le.mpr h3]
        · intro g
          cases g <;>
            simp [sortGunasByScore, List.insertionSort, List.orderedInsert,
              h1, not_le.mpr h2, not_le.mpr h3] <;>
            linarith
  · rcases le_or_lt (sc .tamas) (sc .sattva) with h2 | h2
    · have hrs : sc .rajas ≤ sc .sattva := le_trans (le_of_lt h1) h2
      constructor
      · simp [sortGunasByScore, List.insertionSort, List.orderedInsert,
          specPrecedenceArgmax, not_le.mpr h1, h2, hrs]
      · intro g
        cases g <;>
          simp [sortGunasByScore, List.insertionSort, List.orderedInsert,
            not_le.mpr h1, h2] <;>
          linarith
    · rcases le_or_lt (sc .rajas) (sc .sattva) with h3 | h3
      · constructor
        · simp [sortGunasByScore, List.insertionSort, List.orderedInsert,
            specPrecedenceArgmax, not_le.mpr h1, not_le.mpr h2, h3]
        · intro g
          cases g <;>
            simp [sortGunasByScore, List.insertionSort, List.orderedInsert,
              not_le.mpr h1, not_le.mpr h2, h3] <;>
            linarith
      · constructor
        · simp [sortGunasByScore, List.insertionSort, List.orderedInsert,
            specPrecedenceArgmax, not_le.mpr h1, not_le.mpr h2, not_le.mpr h3]
        · intro g
          cases g <;>
            simp [sortGunasByScore, List.insertionSort, List.orderedInsert,
              not_le.mpr h1, not_le.mpr h2, not_le.mpr h3] <;>
            linarith

/-- **C9**: `classifyFeatures` sets `primary` to the category with the highest
softmax probability; on ties the fixed precedence order sattva (class A)
before rajas (class B) before tamas (class C) decides, as captured by the
spec-side `specPrecedenceArgmax`. -/
theorem C9_primary_is_precedence_argmax (c : GunaClassifier) (f : FeatureVector) :
    (c.classifyFeatures f).primary = specPrecedenceArgmax (c.classifyFeatures f).scores
    ∧ ∀ g : Guna, (c.classifyFeatures f).scores g
        ≤ (c.classifyFeatures f).scores (c.classifyFeatures f).primary := by
  have h := sortGunas_headI_spec
    (GunaClassifier.softmax (fun g => c.rawScore g f))
  simp only [GunaClassifier.classifyFeatures]
  exact ⟨h.1, h.2⟩

/-- Helper: characterization of the `DharmaConstraint.evaluate` loop
accumulator — violations are the violated rules' reports in order, the score
total is the sum of the clamped compliance scores of the non-violated rules,
and the rule count is the number of non-violated rules. -/
theorem constraintFold_spec (action : ConstrainedAction) (rules : List BoundaryRule)
    (init : ConstraintAcc) :
    (rules.foldl (constraintStep action) init).violations
        = init.violations ++ (rules.filter (fun r => r.isViolated action)).map
            (fun r => mkViolationReport r action)
    ∧ (rules.foldl (constraintStep action) init).passed
        = init.passed ++ (rules.filter (fun r => !(r.isViolated action))).map
            (fun r => ({ ruleId := r.id, ruleName := r.name,
                         score := max 0 (min 1 (r.complianceScore action)) } : PassedRule))
    ∧ (rules.foldl (constraintStep action) init).totalScore
        = init.totalScore + ((rules.filter (fun r => !(r.isViolated action))).map
            (fun r => max 0 (min 1 (r.complianceScore action)))).sum
    ∧ (rules.foldl (constraintStep action) init).ruleCount
        = init.ruleCount + (rules.filter (fun r => !(r.isViolated action))).length := by
  induction rules generalizing init with
  | nil => simp
  | cons r rest ih =>
    by_cases h : r.isViolated action
    · have H := ih { init with
        violations := init.violations ++ [mkViolationReport r action] }
      simp only [List.foldl_cons, constraintStep, if_pos h]
      refine ⟨?_, ?_, ?_, ?_⟩
      · rw [H.1]; simp [List.filter_cons, h, List.append_assoc]
      · rw [H.2.1]; simp [List.filter_cons, h]
      · rw [H.2.2.1]; simp [List.filter_cons, h]
      · rw [H.2.2.2]; simp [List.filter_cons, h]
    · have H := ih { init with
        passed := init.passed ++ [{ ruleId := r.id, ruleName := r.name,
                                    score := max 0 (min 1 (r.complianceScore action)) }]
        totalScore := init.totalScore + max 0 (min 1 (r.complianceScore action))
        ruleCount := init.ruleCount + 1 }
      simp only [List.foldl_cons, constraintStep, if_neg h]
      refine ⟨?_, ?_, ?_, ?_⟩
      · rw [H.1]; simp [List.filter_cons, h]
      · rw [H.2.1]; simp [List.filter_cons, h, List.append_assoc]
      · rw [H.2.2.1]; simp [List.filter_cons, h]; ring
      · rw [H.2.2.2]; simp [List.filter_cons, h]; omega

/-- Helper: `permitted` is `true` exactly when no rule in the list is
violated by the action. -/
theorem evaluate_permitted_iff (rules : List BoundaryRule)
    (pt ct : ℝ) (action : ConstrainedAction) :
    (DharmaConstraint.evaluate rules pt ct action).permitted = true
      ↔ ∀ r ∈ rules, r.isViolated action = false := by
  have H := constraintFold_spec action rules
    { violations := [], passed := [], totalScore := 0, ruleCount := 0 }
  simp only [DharmaConstraint.evaluate]
  rw [H.1]
  simp only [List.nil_append, decide_eq_true_eq, List.length_eq_zero,
    List.map_eq_nil_iff, List.filter_eq_nil_iff]
  constructor
  · intro hall r hr
    exact Bool.not_eq_true _ |>.mp (hall r hr)
  · intro hall r hr
    simp [hall r hr]

/-- **C2**: for every action, thresholds and rule list, `evaluate` returns
`permitted = true` iff the violations list is empty; the permission decision
is invariant under permutations of the rule list (priority ordering only
changes evaluation order); and a single violated rule denies the action
regardless of how many other rules pass. -/
theorem C2_permitted_iff_no_violations (rules rules2 : List BoundaryRule)
    (pt ct : ℝ) (action : ConstrainedAction) (hperm : rules2.Perm rules) :
    ((DharmaConstraint.evaluate rules pt ct action).permitted = true
      ↔ (DharmaConstraint.evaluate rules pt ct action).violations = [])
    ∧ (DharmaConstraint.evaluate rules2 pt ct action).permitted
        = (DharmaConstraint.evaluate rules pt ct action).permitted
    ∧ ∀ r ∈ rules, r.isViolated action = true
        → (DharmaConstraint.evaluate rules pt ct action).permitted = false := by
  have H := constraintFold_spec action rules
    { violations := [], passed := [], totalScore := 0, ruleCount := 0 }
  refine ⟨?_, ?_, ?_⟩
  · simp only [DharmaConstraint.evaluate]
    rw [H.1]
    simp
  · rcases Bool.eq_false_or_eq_true
      ((DharmaConstraint.evaluate rules pt ct action).permitted) with hb | hb
    · rw [hb]
      rw [evaluate_permitted_iff] at hb ⊢
      intro r hr
      exact hb r (hperm.mem_iff.mp hr)
    · rw [hb]
      rw [Bool.eq_false_iff]
      intro hcon
      rw [evaluate_permitted_iff] at hcon
      have htrue : (DharmaConstraint.evaluate rules pt ct action).permitted = true := by
        rw [evaluate_permitted_iff]
        intro r hr
        exact hcon r (hperm.mem_iff.mpr hr)
      rw [htrue] at hb
      exact Bool.true_eq_false.mp hb
  · intro r hr hviol
    rw [Bool.eq_false_iff]
    intro hcon
    rw [evaluate_permitted_iff] at hcon
    have := hcon r hr
    rw [hviol] at this
    exact Bool.true_eq_false.mp this

/-- Witness for C2: the theorem applies to the default rule set (taking the
permutation hypothesis reflexively) and a concrete action. -/
theorem C2_permitted_iff_no_violations_witness :
    (DEFAULT_BOUNDARY_RULES.Perm DEFAULT_BOUNDARY_RULES)
    ∧ (((DharmaConstraint.evaluate DEFAULT_BOUNDARY_RULES 0.6 0.3
        sampleConstrainedAction).permitted = true
      ↔ (DharmaConstraint.evaluate DEFAULT_BOUNDARY_RULES 0.6 0.3
        sampleConstrainedAction).violations = [])
    ∧ (DharmaConstraint.evaluate DEFAULT_BOUNDARY_RULES 0.6 0.3
        sampleConstrainedAction).permitted
        = (DharmaConstraint.evaluate DEFAULT_BOUNDARY_RULES 0.6 0.3
        sampleConstrainedAction).permitted
    ∧ ∀ r ∈ DEFAULT_BOUNDARY_RULES, r.isViolated sampleConstrainedAction = true
        → (DharmaConstraint.evaluate DEFAULT_BOUNDARY_RULES 0.6 0.3
            sampleConstrainedAction).permitted = false) :=
  ⟨List.Perm.refl _,
    C2_permitted_iff_no_violations DEFAULT_BOUNDARY_RULES DEFAULT_BOUNDARY_RULES
      0.6 0.3 sampleConstrainedAction (List.Perm.refl _)⟩

/-- **C7**: `complianceScore` equals the sum of the clamped-to-`[0,1]`
compliance scores of the non-violated rules divided by the number of
non-violated rules, and `0` when no rule passed; violated rules contribute to
neither the numerator nor the denominator. -/
theorem C7_complianceScore_formula (rules : List BoundaryRule)
    (pt ct : ℝ) (action : ConstrainedAction) :
    (DharmaConstraint.evaluate rules pt ct action).complianceScore
      = if 0 < (rules.filter (fun r => !(r.isViolated action))).length then
          ((rules.filter (fun r => !(r.isViolated action))).map
              (fun r => max 0 (min 1 (r.complianceScore action)))).sum
            / ((rules.filter (fun r => !(r.isViolated action))).length : ℝ)
        else 0 := by
  have H := constraintFold_spec action rules
    { violations := [], passed := [], totalScore := 0, ruleCount := 0 }
  simp only [DharmaConstraint.evaluate]
  rw [H.2.2.1, H.2.2.2]
  simp

/-- Helper: clamping to `[0,1]` lands in `[0,1]`. -/
theorem clamp01_bounds (x : ℝ) : 0 ≤ max 0 (min 1 x) ∧ max 0 (min 1 x) ≤ 1 :=
  ⟨le_max_left _ _, max_le zero_le_one (min_le_left _ _)⟩

/-- Helper: for evaluator principles with nonnegative weights, the sum of
`clampedScore * weight` lies between `0` and the total weight. -/
theorem evaluator_weighted_sum_bounds (l : List EvaluationPrinciple)
    (f : ExtendedFeatures) (hw : ∀ p ∈ l, 0 ≤ p.weight) :
    0 ≤ (l.map (fun p => max 0 (min 1 (p.score f)) * p.weight)).sum
    ∧ (l.map (fun p => max 0 (min 1 (p.score f)) * p.weight)).sum
        ≤ (l.map (fun p => p.weight)).sum := by
  induction l with
  | nil => simp
  | cons p rest ih =>
    have hp := hw p (List.mem_cons_self _ _)
    have hrest := ih (fun q hq => hw q (List.mem_cons_of_mem _ hq))
    have h0 := (clamp01_bounds (p.score f)).1
    have h1 := (clamp01_bounds (p.score f)).2
    have hterm0 : 0 ≤ max 0 (min 1 (p.score f)) * p.weight := mul_nonneg h0 hp
    have hterm1 : max 0 (min 1 (p.score f)) * p.weight ≤ p.weight := by
      have := mul_le_mul_of_nonneg_right h1 hp
      simpa using this
    simp only [List.map_cons, List.sum_cons]
    constructor
    · linarith [hrest.1]
    · linarith [hrest.2]

/-- Helper: for optimizer principles with nonnegative weights, the sum of
`weight * clampedScore` lies between `0` and the total weight. -/
theorem optimizer_weighted_sum_bounds (l : List DharmicPrinciple)
    (f : FeatureVector) (hw : ∀ p ∈ l, 0 ≤ p.weight) :
    0 ≤ (l.map (fun p => p.weight * max 0 (min 1 (p.score f)))).sum
    ∧ (l.map (fun p => p.weight * max 0 (min 1 (p.score f)))).sum
        ≤ (l.map (fun p => p.weight)).sum := by
  induction l with
  | nil => simp
  | cons p rest ih =>
    have hp := hw p (List.mem_cons_self _ _)
    have hrest := ih (fun q hq => hw q (List.mem_cons_of_mem _ hq))
    have h0 := (clamp01_bounds (p.score f)).1
    have h1 := (clamp01_bounds (p.score f)).2
    have hterm0 : 0 ≤ p.weight * max 0 (min 1 (p.score f)) := mul_nonneg hp h0
    have hterm1 : p.weight * max 0 (min 1 (p.score f)) ≤ p.weight := by
      have := mul_le_mul_of_nonneg_left h1 hp
      simpa using this
    simp only [List.map_cons, List.sum_cons]
    constructor
    · linarith [hrest.1]
    · linarith [hrest.2]

/-- Helper: a sum of clamped compliance scores lies between `0` and the list
length. -/
theorem clamped_sum_le_length (l : List BoundaryRule) (a : ConstrainedAction) :
    0 ≤ (l.map (fun r => max 0 (min 1 (r.complianceScore a)))).sum
    ∧ (l.map (fun r => max 0 (min 1 (r.complianceScore a)))).sum ≤ (l.length : ℝ) := by
  induction l with
  | nil => simp
  | cons r rest ih =>
    have h0 := (clamp01_bounds (r.complianceScore a)).1
    have h1 := (clamp01_bounds (r.complianceScore a)).2
    simp only [List.map_cons, List.sum_cons, List.length_cons]
    push_cast
    constructor
    · linarith [ih.1]
    · linarith [ih.2]

/-- Helper: with nonnegative principle weights the evaluator's `dharmaScore`
lies in `[0,1]`. -/
theorem dharmaScore_bounds (ev : KarmaEvaluator) (a : EvaluatedAction)
    (hw : ∀ p ∈ ev.principles, 0 ≤ p.weight) :
    0 ≤ (ev.evaluate a).dharmaScore ∧ (ev.evaluate a).dharmaScore ≤ 1 := by
  have hb := evaluator_weighted_sum_bounds ev.principles a.features hw
  simp only [KarmaEvaluator.evaluate, List.map_map]
  simp only [Function.comp_def]
  split_ifs with h
  · exact ⟨div_nonneg hb.1 (le_of_lt h), (div_le_one h).mpr hb.2⟩
  · norm_num

/-- Helper: the gate's `complianceScore` always lies in `[0,1]`. -/
theorem complianceScore_bounds (rules : List BoundaryRule) (pt ct : ℝ)
    (a : ConstrainedAction) :
    0 ≤ (DharmaConstraint.evaluate rules pt ct a).complianceScore
    ∧ (DharmaConstraint.evaluate rules pt ct a).complianceScore ≤ 1 := by
  have H := constraintFold_spec a rules
    { violations := [], passed := [], totalScore := 0, ruleCount := 0 }
  have hb := clamped_sum_le_length (rules.filter (fun r => !(r.isViolated a))) a
  simp only [DharmaConstraint.evaluate]
  rw [H.2.2.1, H.2.2.2]
  simp only [zero_add, Nat.cast_add, Nat.cast_zero]
  split_ifs with h
  · have hlen : (0 : ℝ) < ((rules.filter (fun r => !(r.isViolated a))).length : ℝ) := by
      exact_mod_cast h
    constructor
    · exact div_nonneg hb.1 (le_of_lt hlen)
    · exact (div_le_one hlen).mpr hb.2
  · norm_num

/-- Helper: with a nonnegative svadharma weight, `computeFitness` lies in
`[0,1]` (the guna-modified base is clamped before the bonus, and the bonus is
capped at `1`). -/
theorem computeFitness_bounds {T : Type} (opt : NishkamaOptimizer)
    (a : OptimizerAction T) (hsw : 0 ≤ opt.svadharmaWeight) :
    0 ≤ opt.computeFitness a ∧ opt.computeFitness a ≤ 1 := by
  simp only [NishkamaOptimizer.computeFitness]
  set base := (if 0 < (opt.principles.map (fun p => p.weight)).sum then
    (opt.principles.map (fun p => p.weight * max 0 (min 1 (p.score a.features)))).sum
      / (opt.principles.map (fun p => p.weight)).sum else 0) with hbase
  set gm := (opt.classifier.classifyFeatures a.features).scores .sattva * 0.15
    - (opt.classifier.classifyFeatures a.features).scores .tamas * 0.15 with hgm
  have hcl := clamp01_bounds (base + gm)
  match hsv : opt.svadharma with
  | none => exact hcl
  | some duty =>
    dsimp only
    split_ifs with hmatch
    · constructor
      · exact le_min (by norm_num) (by linarith [hcl.1])
      · exact min_le_left _ _
    · exact hcl

/-- **C5**: every score-valued output is in `[0,1]` under weights in `[0,1]`:
the evaluator's `dharmaScore`, the gate's `complianceScore` and the
optimizer's `dharmicFitness`; each weighted average is `Σ(weight·score)/Σ(weight)`
with the quotient defined as `0` (not NaN, not an error) when the total
weight is `0` — an empty principle list gives `dharmaScore = 0`, and an
action violating every rule gives `complianceScore = 0`. -/
theorem C5_score_fields_unit_interval (ev : KarmaEvaluator) (a : EvaluatedAction)
    (rules rules2 : List BoundaryRule) (pt ct : ℝ) (ca ca2 : ConstrainedAction)
    (T : Type) (opt : NishkamaOptimizer) (oa : OptimizerAction T)
    (hw : ∀ p ∈ ev.principles, 0 ≤ p.weight ∧ p.weight ≤ 1)
    (hw2 : ∀ p ∈ opt.principles, 0 ≤ p.weight ∧ p.weight ≤ 1)
    (hsw : 0 ≤ opt.svadharmaWeight ∧ opt.svadharmaWeight ≤ 1)
    (hviol : ∀ r ∈ rules2, r.isViolated ca2 = true) :
    (0 ≤ (ev.evaluate a).dharmaScore ∧ (ev.evaluate a).dharmaScore ≤ 1)
    ∧ ((({ ev with principles := [] } : KarmaEvaluator).evaluate a).dharmaScore = 0)
    ∧ (0 ≤ (DharmaConstraint.evaluate rules pt ct ca).complianceScore
        ∧ (DharmaConstraint.evaluate rules pt ct ca).complianceScore ≤ 1)
    ∧ (DharmaConstraint.evaluate rules2 pt ct ca2).complianceScore = 0
    ∧ (0 ≤ opt.computeFitness oa ∧ opt.computeFitness oa ≤ 1) := by
  refine ⟨dharmaScore_bounds ev a (fun p hp => (hw p hp).1), ?_,
    complianceScore_bounds rules pt ct ca, ?_,
    computeFitness_bounds opt oa hsw.1⟩
  · simp [KarmaEvaluator.evaluate]
  · have H := constraintFold_spec ca2 rules2
      { violations := [], passed := [], totalScore := 0, ruleCount := 0 }
    have hfil : rules2.filter (fun r => !(r.isViolated ca2)) = [] := by
      rw [List.filter_eq_nil_iff]
      intro r hr
      simp [hviol r hr]
    simp only [DharmaConstraint.evaluate]
    rw [H.2.2.2, hfil]
    simp

/-- Witness for C5: the hypotheses hold for an evaluator and optimizer with
empty principle lists, the empty rule list, a rule list whose single rule is
always violated, and a concrete candidate; the theorem applies there. -/
theorem C5_score_fields_unit_interval_witness :
    (∀ p ∈ emptyPrinciplesEvaluator.principles, 0 ≤ p.weight ∧ p.weight ≤ 1)
    ∧ (∀ p ∈ emptyPrinciplesOptimizer.principles, 0 ≤ p.weight ∧ p.weight ≤ 1)
    ∧ (0 ≤ emptyPrinciplesOptimizer.svadharmaWeight
        ∧ emptyPrinciplesOptimizer.svadharmaWeight ≤ 1)
    ∧ (∀ r ∈ [alwaysViolatedRule], r.isViolated sampleConstrainedAction = true)
    ∧ ((0 ≤ (emptyPrinciplesEvaluator.evaluate
          (toEvaluatedAction (sampleEntry "e1" 0.5))).dharmaScore
      ∧ (emptyPrinciplesEvaluator.evaluate
          (toEvaluatedAction (sampleEntry "e1" 0.5))).dharmaScore ≤ 1)
    ∧ ((({ emptyPrinciplesEvaluator with principles := [] } : KarmaEvaluator).evaluate
        (toEvaluatedAction (sampleEntry "e1" 0.5))).dharmaScore = 0)
    ∧ (0 ≤ (DharmaConstraint.evaluate [] 0.6 0.3
          sampleConstrainedAction).complianceScore
        ∧ (DharmaConstraint.evaluate [] 0.6 0.3
          sampleConstrainedAction).complianceScore ≤ 1)
    ∧ (DharmaConstraint.evaluate [alwaysViolatedRule] 0.6 0.3
        sampleConstrainedAction).complianceScore = 0
    ∧ (0 ≤ emptyPrinciplesOptimizer.computeFitness sampleOptimizerAction
        ∧ emptyPrinciplesOptimizer.computeFitness sampleOptimizerAction ≤ 1)) :=
  ⟨by simp [emptyPrinciplesEvaluator],
    by simp [emptyPrinciplesOptimizer],
    by constructor <;> norm_num [emptyPrinciplesOptimizer],
    by intro r hr; simp only [List.mem_singleton] at hr; simp [hr, alwaysViolatedRule],
    C5_score_fields_unit_interval emptyPrinciplesEvaluator
      (toEvaluatedAction (sampleEntry "e1" 0.5)) [] [alwaysViolatedRule] 0.6 0.3
      sampleConstrainedAction sampleConstrainedAction Unit emptyPrinciplesOptimizer
      sampleOptimizerAction
      (by simp [emptyPrinciplesEvaluator])
      (by simp [emptyPrinciplesOptimizer])
      (by constructor <;> norm_num [emptyPrinciplesOptimizer])
      (by intro r hr; simp only [List.mem_singleton] at hr; simp [hr, alwaysViolatedRule])⟩

/-- Helper: `List.getD` yields the default or a member. -/
theorem getD_default_or_mem {α : Type} (l : List α) (i : ℕ) (d : α) :
    l.getD i d = d ∨ l.getD i d ∈ l := by
  by_cases hi : i < l.length
  · right
    rw [List.getD_eq_getElem l d hi]
    exact List.getElem_mem hi
  · left
    exact List.getD_eq_default l d (le_of_not_lt hi)

/-- Helper: whatever index the selection loop produces, the element drawn
from the sorted pool (with the first evaluated candidate as `getD` default)
is the evaluation of one of the input candidates. -/
theorem sorted_getD_action_mem {T : Type} (opt : NishkamaOptimizer)
    (a0 : OptimizerAction T) (rest : List (OptimizerAction T)) (i : ℕ) :
    ((List.insertionSort
        (fun x y : RankedAction T => y.dharmicFitness ≤ x.dharmicFitness)
        (if (((a0 :: rest).map opt.evalAction).filter
              (fun e => decide (opt.minimumFitness ≤ e.dharmicFitness))).length = 0
          then (a0 :: rest).map opt.evalAction
          else ((a0 :: rest).map opt.evalAction).filter
            (fun e => decide (opt.minimumFitness ≤ e.dharmicFitness)))).getD i
        (opt.evalAction a0)).action ∈ a0 :: rest := by
  rcases getD_default_or_mem
      (List.insertionSort
        (fun x y : RankedAction T => y.dharmicFitness ≤ x.dharmicFitness)
        (if (((a0 :: rest).map opt.evalAction).filter
              (fun e => decide (opt.minimumFitness ≤ e.dharmicFitness))).length = 0
          then (a0 :: rest).map opt.evalAction
          else ((a0 :: rest).map opt.evalAction).filter
            (fun e => decide (opt.minimumFitness ≤ e.dharmicFitness))))
      i (opt.evalAction a0) with hd | hd
  · rw [hd]
    simp only [NishkamaOptimizer.evalAction]
    exact List.mem_cons_self a0 rest
  · have hpool := (List.perm_insertionSort
      (fun x y : RankedAction T => y.dharmicFitness ≤ x.dharmicFitness)
      (if (((a0 :: rest).map opt.evalAction).filter
            (fun e => decide (opt.minimumFitness ≤ e.dharmicFitness))).length = 0
        then (a0 :: rest).map opt.evalAction
        else ((a0 :: rest).map opt.evalAction).filter
          (fun e => decide (opt.minimumFitness ≤ e.dharmicFitness)))).mem_iff.mp hd
    have hev : (List.insertionSort
        (fun x y : RankedAction T => y.dharmicFitness ≤ x.dharmicFitness)
        (if (((a0 :: rest).map opt.evalAction).filter
              (fun e => decide (opt.minimumFitness ≤ e.dharmicFitness))).length = 0
          then (a0 :: rest).map opt.evalAction
          else ((a0 :: rest).map opt.evalAction).filter
            (fun e => decide (opt.minimumFitness ≤ e.dharmicFitness)))).getD i
        (opt.evalAction a0) ∈ (a0 :: rest).map opt.evalAction := by
      by_cases hc : (((a0 :: rest).map opt.evalAction).filter
          (fun e => decide (opt.minimumFitness ≤ e.dharmicFitness))).length = 0
      · rw [if_pos hc] at hpool ⊢
        exact hpool
      · rw [if_neg hc] at hpool ⊢
        exact List.mem_of_mem_filter hpool
    rcases List.mem_map.mp hev with ⟨b, hb, heq⟩
    rw [← heq]
    simp only [NishkamaOptimizer.evalAction]
    exact hb

/-- **C6**: `optimize` fails with an error on the empty candidate list, and on
every non-empty candidate list (for every configuration — any
`minimumFitness`, any `temperature` — and every random draw) it succeeds and
selects a member of the input list: the minimum-fitness filter falls back to
the unfiltered set when it would empty the pool, so the selection is never
empty or undefined. -/
theorem C6_optimize_error_empty_and_member {T : Type} (opt : NishkamaOptimizer)
    (rand : ℝ) (acts : List (OptimizerAction T)) (h : acts ≠ []) :
    (NishkamaOptimizer.optimize opt rand ([] : List (OptimizerAction T))
        = .error "Cannot optimize empty action set. At least one action required.")
    ∧ ∃ res, opt.optimize rand acts = .ok res ∧ res.selected ∈ acts := by
  constructor
  · rfl
  · match acts, h with
    | a0 :: rest, _ =>
      simp only [NishkamaOptimizer.optimize]
      exact ⟨_, rfl, sorted_getD_action_mem opt a0 rest _⟩

/-- Witness for C6: the non-emptiness hypothesis holds for the singleton
candidate list, and the theorem applies with the default configuration and a
zero random draw. -/
theorem C6_optimize_error_empty_and_member_witness :
    ([sampleOptimizerAction] ≠ ([] : List (OptimizerAction Unit)))
    ∧ ((NishkamaOptimizer.optimize (mkNishkamaOptimizer {}) 0
        ([] : List (OptimizerAction Unit))
        = .error "Cannot optimize empty action set. At least one action required.")
    ∧ ∃ res, (mkNishkamaOptimizer {}).optimize 0 [sampleOptimizerAction] = .ok res
        ∧ res.selected ∈ [sampleOptimizerAction]) :=
  ⟨by simp,
    C6_optimize_error_empty_and_member (mkNishkamaOptimizer {}) 0
      [sampleOptimizerAction] (by simp)⟩

theorem range_map_sum (n : ℕ) (g : ℕ → ℝ) :
    ((List.range n).map g).sum = ∑ i in Finset.range n, g i := by
  induction n with
  | zero => simp
  | succ m ih =>
    rw [List.range_succ, Finset.sum_range_succ, List.map_append, List.sum_append, ih]
    simp

/-- Helper: a list sum as a sum of `getD` over positions. -/
theorem list_sum_eq_sum_getD (xs : List ℝ) :
    xs.sum = ∑ i in Finset.range xs.length, xs.getD i 0 := by
  induction xs with
  | nil => simp
  | cons x t ih =>
    rw [List.sum_cons, List.length_cons, Finset.sum_range_succ', ih]
    simp [List.getD, add_comm]

/-- Helper: a mapped list sum as a sum of `getD` over positions. -/
theorem list_map_sum_eq_sum_getD (f : ℝ → ℝ) (xs : List ℝ) :
    (xs.map f).sum = ∑ i in Finset.range xs.length, f (xs.getD i 0) := by
  rw [list_sum_eq_sum_getD (xs.map f), List.length_map]
  apply Finset.sum_congr rfl
  intro i hi
  have hlt : i < xs.length := Finset.mem_range.mp hi
  rw [List.getD_eq_getElem _ _ (by simpa using hlt), List.getD_eq_getElem _ _ hlt]
  simp

/-- Helper: Gauss sum of the real-cast indices. -/
theorem sum_range_cast (n : ℕ) :
    ∑ i in Finset.range n, (i : ℝ) = (n : ℝ) * ((n : ℝ) - 1) / 2 := by
  induction n with
  | zero => simp
  | succ m ih =>
    rw [Finset.sum_range_succ, ih]
    push_cast
    ring

/-- Helper: the index/score centered cross sum in closed form. -/
theorem sum_centered_eq (n : ℕ) (s : ℕ → ℝ) (hn : 0 < n) :
    ∑ i in Finset.range n,
        (((i : ℝ) - ((n : ℝ) - 1) / 2) * (s i - (∑ j in Finset.range n, s j) / n))
      = (∑ i in Finset.range n, (i : ℝ) * s i)
        - (∑ i in Finset.range n, (i : ℝ)) * (∑ i in Finset.range n, s i) / n := by
  have hn0 : ((n : ℝ)) ≠ 0 := by positivity
  have hA := sum_range_cast n
  calc ∑ i in Finset.range n,
        (((i : ℝ) - ((n : ℝ) - 1) / 2) * (s i - (∑ j in Finset.range n, s j) / n))
      = ∑ i in Finset.range n,
          ((i : ℝ) * s i - ((n : ℝ) - 1) / 2 * s i
            - (∑ j in Finset.range n, s j) / n * (i : ℝ)
            + ((n : ℝ) - 1) / 2 * ((∑ j in Finset.range n, s j) / n)) :=
        Finset.sum_congr rfl (by intro i _; ring)
    _ = (∑ i in Finset.range n, (i : ℝ) * s i)
          - ((n : ℝ) - 1) / 2 * (∑ i in Finset.range n, s i)
          - (∑ j in Finset.range n, s j) / n * (∑ i in Finset.range n, (i : ℝ))
          + (n : ℝ) * (((n : ℝ) - 1) / 2 * ((∑ j in Finset.range n, s j) / n)) := by
        rw [Finset.sum_add_distrib, Finset.sum_sub_distrib, Finset.sum_sub_distrib,
          ← Finset.mul_sum, ← Finset.mul_sum, Finset.sum_const, Finset.card_range,
          nsmul_eq_mul]
    _ = (∑ i in Finset.range n, (i : ℝ) * s i)
        - (∑ i in Finset.range n, (i : ℝ)) * (∑ i in Finset.range n, s i) / n := by
        rw [hA]
        field_simp
        ring

/-- Helper: the pairwise double sum over index/score gaps in closed form. -/
theorem double_sum_eq (n : ℕ) (s : ℕ → ℝ) :
    ∑ i in Finset.range n, ∑ j in Finset.range n,
        (((i : ℝ) - (j : ℝ)) * (s i - s j))
      = 2 * (n : ℝ) * (∑ i in Finset.range n, (i : ℝ) * s i)
        - 2 * (∑ i in Finset.range n, (i : ℝ)) * (∑ i in Finset.range n, s i) := by
  have inner : ∀ i : ℕ, ∑ j in Finset.range n, (((i : ℝ) - (j : ℝ)) * (s i - s j))
      = (n : ℝ) * ((i : ℝ) * s i) - (i : ℝ) * (∑ j in Finset.range n, s j)
        - (∑ j in Finset.range n, (j : ℝ)) * s i
        + ∑ j in Finset.range n, (j : ℝ) * s j := by
    intro i
    calc ∑ j in Finset.range n, (((i : ℝ) - (j : ℝ)) * (s i - s j))
        = ∑ j in Finset.range n,
            ((i : ℝ) * s i - (i : ℝ) * s j - (j : ℝ) * s i + (j : ℝ) * s j) :=
          Finset.sum_congr rfl (by intro j _; ring)
      _ = (n : ℝ) * ((i : ℝ) * s i) - (i : ℝ) * (∑ j in Finset.range n, s j)
            - (∑ j in Finset.range n, (j : ℝ)) * s i
            + ∑ j in Finset.range n, (j : ℝ) * s j := by
          rw [Finset.sum_add_distrib, Finset.sum_sub_distrib, Finset.sum_sub_distrib,
            Finset.sum_const, Finset.card_range, nsmul_eq_mul, ← Finset.mul_sum,
            ← Finset.sum_mul]
  calc ∑ i in Finset.range n, ∑ j in Finset.range n,
        (((i : ℝ) - (j : ℝ)) * (s i - s j))
      = ∑ i in Finset.range n,
          ((n : ℝ) * ((i : ℝ) * s i) - (i : ℝ) * (∑ j in Finset.range n, s j)
            - (∑ j in Finset.range n, (j : ℝ)) * s i
            + ∑ j in Finset.range n, (j : ℝ) * s j) :=
        Finset.sum_congr rfl (fun i _ => inner i)
    _ = (n : ℝ) * ∑ i in Finset.range n, ((i : ℝ) * s i)
          - (∑ i in Finset.range n, (i : ℝ)) * (∑ j in Finset.range n, s j)
          - (∑ j in Finset.range n, (j : ℝ)) * (∑ i in Finset.range n, s i)
          + (n : ℝ) * ∑ j in Finset.range n, (j : ℝ) * s j := by
        rw [Finset.sum_add_distrib, Finset.sum_sub_distrib, Finset.sum_sub_distrib,
          ← Finset.mul_sum, ← Finset.sum_mul, ← Finset.mul_sum, Finset.sum_const,
          Finset.card_range, nsmul_eq_mul]
    _ = 2 * (n : ℝ) * (∑ i in Finset.range n, (i : ℝ) * s i)
        - 2 * (∑ i in Finset.range n, (i : ℝ)) * (∑ i in Finset.range n, s i) := by
        ring

/-- Helper: for monotone, non-constant scores the pairwise double sum is strictly positive. -/
theorem double_sum_pos (n : ℕ) (s : ℕ → ℝ)
    (hmono : ∀ i j, i < n → j < n → i ≤ j → s i ≤ s j)
    (hne : ∃ i, i < n ∧ ∃ j, j < n ∧ s i ≠ s j) :
    0 < ∑ i in Finset.range n, ∑ j in Finset.range n,
        (((i : ℝ) - (j : ℝ)) * (s i - s j)) := by
  have hterm : ∀ i ∈ Finset.range n, ∀ j ∈ Finset.range n,
      0 ≤ ((i : ℝ) - (j : ℝ)) * (s i - s j) := by
    intro i hi j hj
    rcases le_total i j with hij | hij
    · have h1 : (i : ℝ) - (j : ℝ) ≤ 0 := by
        have : (i : ℝ) ≤ (j : ℝ) := by exact_mod_cast hij
        linarith
      have h2 : s i - s j ≤ 0 := by
        have := hmono i j (Finset.mem_range.mp hi) (Finset.mem_range.mp hj) hij
        linarith
      exact mul_nonneg_of_nonpos_of_nonpos h1 h2
    · have h1 : 0 ≤ (i : ℝ) - (j : ℝ) := by
        have : (j : ℝ) ≤ (i : ℝ) := by exact_mod_cast hij
        linarith
      have h2 : 0 ≤ s i - s j := by
        have := hmono j i (Finset.mem_range.mp hj) (Finset.mem_range.mp hi) hij
        linarith
      exact mul_nonneg h1 h2
  obtain ⟨i0, hi0, j0, hj0, hne0⟩ := hne
  obtain ⟨a, b, ha, hb, hab, hsab⟩ :
      ∃ a b, a < n ∧ b < n ∧ a < b ∧ s a < s b := by
    rcases lt_trichotomy i0 j0 with hlt | heq | hgt
    · exact ⟨i0, j0, hi0, hj0, hlt,
        lt_of_le_of_ne (hmono i0 j0 hi0 hj0 (le_of_lt hlt)) hne0⟩
    · exact absurd (congrArg s heq) hne0
    · exact ⟨j0, i0, hj0, hi0, hgt,
        lt_of_le_of_ne (hmono j0 i0 hj0 hi0 (le_of_lt hgt)) (Ne.symm hne0)⟩
  apply Finset.sum_pos'
  · intro i hi
    exact Finset.sum_nonneg (fun j hj => hterm i hi j hj)
  · refine ⟨b, Finset.mem_range.mpr hb, ?_⟩
    apply Finset.sum_pos'
    · intro j hj
      exact hterm b (Finset.mem_range.mpr hb) j hj
    · refine ⟨a, Finset.mem_range.mpr ha, ?_⟩
      have h1 : 0 < (b : ℝ) - (a : ℝ) := by
        have : (a : ℝ) < (b : ℝ) := by exact_mod_cast hab
        linarith
      have h2 : 0 < s b - s a := by linarith
      exact mul_pos h1 h2

/-- Helper: for monotone non-constant scores the covariance between index and score is strictly positive. -/
theorem covariance_pos (n : ℕ) (s : ℕ → ℝ) (h2 : 2 ≤ n)
    (hmono : ∀ i j, i < n → j < n → i ≤ j → s i ≤ s j)
    (hne : ∃ i, i < n ∧ ∃ j, j < n ∧ s i ≠ s j) :
    0 < ∑ i in Finset.range n,
        (((i : ℝ) - ((n : ℝ) - 1) / 2) * (s i - (∑ j in Finset.range n, s j) / n)) := by
  have hn : 0 < n := lt_of_lt_of_le two_pos h2
  have hnR : (0 : ℝ) < (n : ℝ) := by exact_mod_cast hn
  rw [sum_centered_eq n s hn]
  have hTpos := double_sum_pos n s hmono hne
  rw [double_sum_eq n s] at hTpos
  have hrw : (∑ i in Finset.range n, (i : ℝ) * s i)
      - (∑ i in Finset.range n, (i : ℝ)) * (∑ i in Finset.range n, s i) / n
      = (2 * (n : ℝ) * (∑ i in Finset.range n, (i : ℝ) * s i)
          - 2 * (∑ i in Finset.range n, (i : ℝ)) * (∑ i in Finset.range n, s i))
        / (2 * (n : ℝ)) := by
    field_simp
    ring
  rw [hrw]
  exact div_pos hTpos (by positivity)

/-- Helper: the Pearson correlation of a weakly increasing, non-constant list of at least two scores is strictly positive. -/
theorem pearson_pos (xs : List ℝ) (h2 : 2 ≤ xs.length)
    (hmono : xs.Pairwise (· ≤ ·))
    (hne : ∃ a ∈ xs, ∃ b ∈ xs, a ≠ b) :
    0 < pearsonCorrelation xs := by
  have hn : 0 < xs.length := by omega
  have hnR : (0 : ℝ) < (xs.length : ℝ) := by exact_mod_cast hn
  -- monotone getD access
  have hmono' : ∀ i j, i < xs.length → j < xs.length → i ≤ j
      → xs.getD i 0 ≤ xs.getD j 0 := by
    intro i j hi hj hij
    rcases eq_or_lt_of_le hij with rfl | hlt
    · exact le_refl _
    · rw [List.getD_eq_getElem _ _ hi, List.getD_eq_getElem _ _ hj]
      exact List.pairwise_iff_get.mp hmono ⟨i, hi⟩ ⟨j, hj⟩ hlt
  -- two distinct values at indices
  have hne' : ∃ i, i < xs.length ∧ ∃ j, j < xs.length
      ∧ xs.getD i 0 ≠ xs.getD j 0 := by
    obtain ⟨a, ha, b, hb, hab⟩ := hne
    obtain ⟨⟨i, hi⟩, rfl⟩ := List.mem_iff_get.mp ha
    obtain ⟨⟨j, hj⟩, rfl⟩ := List.mem_iff_get.mp hb
    refine ⟨i, hi, j, hj, ?_⟩
    rw [List.getD_eq_getElem _ _ hi, List.getD_eq_getElem _ _ hj]
    simpa using hab
  have hcov := covariance_pos xs.length (fun i => xs.getD i 0) h2 hmono' hne'
  -- numerator in list form
  have hnum : ((List.range xs.length).map
      (fun (i : ℕ) => ((i : ℝ) - ((xs.length : ℝ) - 1) / 2)
        * (xs.getD i 0 - xs.sum / (xs.length : ℝ)))).sum
      = ∑ i in Finset.range xs.length,
          (((i : ℝ) - ((xs.length : ℝ) - 1) / 2)
            * (xs.getD i 0 - (∑ j in Finset.range xs.length, xs.getD j 0)
                / (xs.length : ℝ))) := by
    rw [range_map_sum, ← list_sum_eq_sum_getD]
  -- index denominator is positive
  have hdenI : 0 < Real.sqrt (((List.range xs.length).map
      (fun (i : ℕ) => ((i : ℝ) - ((xs.length : ℝ) - 1) / 2) ^ 2)).sum) := by
    apply Real.sqrt_pos.mpr
    rw [range_map_sum]
    apply Finset.sum_pos'
    · intro i _
      exact sq_nonneg _
    · refine ⟨0, Finset.mem_range.mpr hn, ?_⟩
      have h1 : (1 : ℝ) ≤ (xs.length : ℝ) - 1 := by
        have : (2 : ℝ) ≤ (xs.length : ℝ) := by exact_mod_cast h2
        linarith
      have : ((0 : ℕ) : ℝ) - ((xs.length : ℝ) - 1) / 2 ≠ 0 := by
        push_cast
        intro hcon
        nlinarith
      positivity
  -- score denominator is positive
  have hdenS : 0 < Real.sqrt ((xs.map
      (fun s => (s - xs.sum / (xs.length : ℝ)) ^ 2)).sum) := by
    apply Real.sqrt_pos.mpr
    rw [list_map_sum_eq_sum_getD]
    apply Finset.sum_pos'
    · intro i _
      exact sq_nonneg _
    · obtain ⟨i, hi, j, hj, hij⟩ := hne'
      rcases ne_or_eq (xs.getD i 0) (xs.sum / (xs.length : ℝ)) with hne2 | heq
      · exact ⟨i, Finset.mem_range.mpr hi,
          pow_two_pos_of_ne_zero (sub_ne_zero.mpr hne2)⟩
      · refine ⟨j, Finset.mem_range.mpr hj, ?_⟩
        have hne3 : xs.getD j 0 - xs.sum / (xs.length : ℝ) ≠ 0 := by
          rw [← heq]
          intro hcon
          apply hij
          linarith
        exact pow_two_pos_of_ne_zero hne3
  simp only [pearsonCorrelation]
  rw [if_neg (by omega : ¬ xs.length < 2)]
  rw [if_neg (by positivity :
    ¬ Real.sqrt (((List.range xs.length).map
        (fun (i : ℕ) => ((i : ℝ) - ((xs.length : ℝ) - 1) / 2) ^ 2)).sum)
      * Real.sqrt ((xs.map
        (fun s => (s - xs.sum / (xs.length : ℝ)) ^ 2)).sum) = 0)]
  apply div_pos
  · rw [hnum]
    exact hcov
  · positivity

/-- Helper: on a non-empty input, the audit's `trend` statistic is the
Pearson correlation of the per-entry dharma scores in input order. -/
theorem audit_trend_eq (au : AlignmentAudit) (entries : List AuditLogEntry)
    (h : entries ≠ []) :
    (au.audit entries).statistics.trend
      = pearsonCorrelation (entries.map
          (fun e => (au.evaluator.evaluate (toEvaluatedAction e)).dharmaScore)) := by
  simp only [AlignmentAudit.audit]
  rw [if_neg (by simpa using h)]
  simp [List.map_map, Function.comp_def]

/-- **C8** (counterexample): a single-entry audit input has vacuously
monotonically increasing scores, yet `trend = 0` (Pearson correlation is
defined as `0` below two points), refuting `trend > 0` for every non-empty
monotone input. -/
theorem C8_singleton_trend_zero_counterexample :
    ([sampleEntry "e1" 0.5] ≠ ([] : List AuditLogEntry))
    ∧ List.Pairwise (· ≤ ·) ([sampleEntry "e1" 0.5].map
        (fun e => (defaultAudit.evaluator.evaluate (toEvaluatedAction e)).dharmaScore))
    ∧ ¬ (0 < (defaultAudit.audit [sampleEntry "e1" 0.5]).statistics.trend) := by
  refine ⟨by simp, by simp, ?_⟩
  rw [audit_trend_eq defaultAudit [sampleEntry "e1" 0.5] (by simp)]
  simp [pearsonCorrelation]

/-- **C8** (amended): for every audit input of at least two entries whose
per-entry composite scores are monotonically increasing with the index and
not all equal, `audit` returns `statistics.trend > 0`, where `trend` is the
Pearson correlation between sequence index and score (defined as `0` when
the correlation denominator is `0` or there are fewer than 2 points). -/
theorem C8_trend_positive_amended (au : AlignmentAudit)
    (entries : List AuditLogEntry) (h2 : 2 ≤ entries.length)
    (hmono : (entries.map
        (fun e => (au.evaluator.evaluate (toEvaluatedAction e)).dharmaScore)).Pairwise (· ≤ ·))
    (hnc : ∃ a ∈ entries.map
          (fun e => (au.evaluator.evaluate (toEvaluatedAction e)).dharmaScore),
        ∃ b ∈ entries.map
          (fun e => (au.evaluator.evaluate (toEvaluatedAction e)).dharmaScore),
        a ≠ b) :
    0 < (au.audit entries).statistics.trend := by
  have hne : entries ≠ [] := by
    intro hcon
    rw [hcon] at h2
    simp at h2
  rw [audit_trend_eq au entries hne]
  exact pearson_pos _ (by simpa using h2) hmono hnc

/-- Witness for C8 (amended): a two-entry input whose scores under a
single-principle evaluator are `0.2` and `0.9` — at least two entries,
monotonically increasing, not all equal — and the theorem applies, giving a
strictly positive trend. -/
theorem C8_trend_positive_amended_witness :
    2 ≤ ([sampleEntry "a" 0.2, sampleEntry "b" 0.9] : List AuditLogEntry).length
    ∧ ([sampleEntry "a" 0.2, sampleEntry "b" 0.9].map
        (fun e => (altruismAudit.evaluator.evaluate
          (toEvaluatedAction e)).dharmaScore)).Pairwise (· ≤ ·)
    ∧ (∃ a ∈ [sampleEntry "a" 0.2, sampleEntry "b" 0.9].map
          (fun e => (altruismAudit.evaluator.evaluate
            (toEvaluatedAction e)).dharmaScore),
        ∃ b ∈ [sampleEntry "a" 0.2, sampleEntry "b" 0.9].map
          (fun e => (altruismAudit.evaluator.evaluate
            (toEvaluatedAction e)).dharmaScore),
        a ≠ b)
    ∧ 0 < (altruismAudit.audit
        [sampleEntry "a" 0.2, sampleEntry "b" 0.9]).statistics.trend :=
  ⟨by norm_num,
    by
      norm_num [List.pairwise_cons, KarmaEvaluator.evaluate, altruismAudit,
        altruismPrinciple, toEvaluatedAction, sampleEntry, constExtFeatures,
        constFeatures],
    by
      refine ⟨(altruismAudit.evaluator.evaluate
          (toEvaluatedAction (sampleEntry "a" 0.2))).dharmaScore, by simp,
        (altruismAudit.evaluator.evaluate
          (toEvaluatedAction (sampleEntry "b" 0.9))).dharmaScore, by simp, ?_⟩
      norm_num [KarmaEvaluator.evaluate, altruismAudit, altruismPrinciple,
        toEvaluatedAction, sampleEntry, constExtFeatures, constFeatures],
    C8_trend_positive_amended altruismAudit
    [sampleEntry "a" 0.2, sampleEntry "b" 0.9]
    (by norm_num)
    (by
      norm_num [List.pairwise_cons, KarmaEvaluator.evaluate, altruismAudit,
        altruismPrinciple, toEvaluatedAction, sampleEntry, constExtFeatures,
        constFeatures])
    (by
      refine ⟨(altruismAudit.evaluator.evaluate
          (toEvaluatedAction (sampleEntry "a" 0.2))).dharmaScore, by simp,
        (altruismAudit.evaluator.evaluate
          (toEvaluatedAction (sampleEntry "b" 0.9))).dharmaScore, by simp, ?_⟩
      norm_num [KarmaEvaluator.evaluate, altruismAudit, altruismPrinciple,
        toEvaluatedAction, sampleEntry, constExtFeatures, constFeatures])⟩

/-- Helper: `evaluate` stores the evaluated action unchanged. -/
theorem evaluate_action_eq (ev : KarmaEvaluator) (a : EvaluatedAction) :
    (ev.evaluate a).action = a := rfl

/-- Helper: the entry-to-action conversion preserves the id. -/
theorem toEvaluatedAction_id (e : AuditLogEntry) :
    (toEvaluatedAction e).id = e.id := rfl

/-- Helper: in a list of entries with pairwise-distinct ids, `find?` by id
returns exactly the matching entry. -/
theorem find_id_nodup (l : List AuditLogEntry)
    (hnd : (l.map (fun e => e.id)).Nodup) (en : AuditLogEntry) (hen : en ∈ l) :
    l.find? (fun e => e.id == en.id) = some en := by
  induction l with
  | nil => cases hen
  | cons a t ih =>
    rcases List.mem_cons.mp hen with rfl | hent
    · simp [List.find?_cons]
    · have hne : a.id ≠ en.id := by
        intro hcon
        have : en.id ∈ t.map (fun e => e.id) := List.mem_map_of_mem _ hent
        rw [← hcon] at this
        exact (List.nodup_cons.mp hnd).1 this
      rw [List.find?_cons]
      have : (a.id == en.id) = false := beq_eq_false_iff_ne.mpr hne
      rw [this]
      exact ih (List.nodup_cons.mp hnd).2 hent

/-- **C10**: over a non-empty input with pairwise-distinct ids, an evaluation
appears in `flaggedActions` iff it is not aligned or its dharma score is
below the critical threshold; and each flagged record's `action` field is
exactly the input entry whose id equals the evaluation's action id — the
entry that produced that evaluation. -/
theorem C10_flagged (au : AlignmentAudit) (entries : List AuditLogEntry)
    (hne : entries ≠ [])
    (hnodup : (entries.map (fun e => e.id)).Nodup) :
    (∀ ev : KarmaEvaluation,
      ((∃ f ∈ (au.audit entries).flaggedActions, f.evaluation = ev)
        ↔ (ev ∈ (au.audit entries).evaluations
            ∧ (ev.isAligned = false ∨ ev.dharmaScore < au.criticalThreshold))))
    ∧ (∀ f ∈ (au.audit entries).flaggedActions, ∃ en ∈ entries,
        f.action = some en
        ∧ f.evaluation = au.evaluator.evaluate (toEvaluatedAction en)
        ∧ f.evaluation.action.id = en.id) := by
  simp only [AlignmentAudit.audit]
  rw [if_neg (by simpa using hne)]
  constructor
  · intro ev
    constructor
    · rintro ⟨f, hf, rfl⟩
      rcases List.mem_map.mp hf with ⟨ev', hev', rfl⟩
      have hf2 := List.mem_filter.mp hev'
      refine ⟨hf2.1, ?_⟩
      have := hf2.2
      simpa [Bool.or_eq_true, Bool.not_eq_true', decide_eq_true_eq] using this
    · rintro ⟨hmem, hcond⟩
      refine ⟨_, List.mem_map_of_mem _ (List.mem_filter.mpr ⟨hmem, ?_⟩), rfl⟩
      simpa [Bool.or_eq_true, Bool.not_eq_true', decide_eq_true_eq] using hcond
  · intro f hf
    rcases List.mem_map.mp hf with ⟨ev', hev', rfl⟩
    have hmem1 : ev' ∈ List.insertionSort
        (fun a b => b.dharmaScore ≤ a.dharmaScore)
        ((entries.map toEvaluatedAction).map au.evaluator.evaluate) :=
      (List.mem_filter.mp hev').1
    have hmem2 : ev' ∈ (entries.map toEvaluatedAction).map au.evaluator.evaluate :=
      (List.perm_insertionSort _ _).mem_iff.mp hmem1
    rw [List.map_map] at hmem2
    rcases List.mem_map.mp hmem2 with ⟨en, hen, heq⟩
    refine ⟨en, hen, ?_, ?_, ?_⟩
    · have hid : ev'.action.id = en.id := by
        rw [← heq]
        rfl
      rw [hid]
      exact find_id_nodup entries hnodup en hen
    · rw [← heq]
      rfl
    · rw [← heq]
      rfl

/-- Witness for C10: the hypotheses hold for a concrete two-entry input with
distinct ids `"a"` and `"b"`, and the theorem applies. -/
theorem C10_flagged_witness :
    ([sampleEntry "a" 0.2, sampleEntry "b" 0.9] ≠ ([] : List AuditLogEntry))
    ∧ (([sampleEntry "a" 0.2, sampleEntry "b" 0.9].map (fun e => e.id)).Nodup)
    ∧ ((∀ ev : KarmaEvaluation,
        ((∃ f ∈ (altruismAudit.audit
              [sampleEntry "a" 0.2, sampleEntry "b" 0.9]).flaggedActions,
            f.evaluation = ev)
          ↔ (ev ∈ (altruismAudit.audit
                [sampleEntry "a" 0.2, sampleEntry "b" 0.9]).evaluations
              ∧ (ev.isAligned = false
                ∨ ev.dharmaScore < altruismAudit.criticalThreshold))))
      ∧ (∀ f ∈ (altruismAudit.audit
            [sampleEntry "a" 0.2, sampleEntry "b" 0.9]).flaggedActions,
          ∃ en ∈ [sampleEntry "a" 0.2, sampleEntry "b" 0.9],
            f.action = some en
            ∧ f.evaluation = altruismAudit.evaluator.evaluate (toEvaluatedAction en)
            ∧ f.evaluation.action.id = en.id)) :=
  ⟨by simp,
    by simp [sampleEntry],
    C10_flagged altruismAudit [sampleEntry "a" 0.2, sampleEntry "b" 0.9]
      (by simp) (by simp [sampleEntry])⟩
